import Mathlib

set_option maxHeartbeats 1000000

/-!
Shallow embedding of the wg-streams repository (lib/pullstream.js and lib/chunk.js).

Modelling conventions:
* JavaScript numbers at buffer indices are bytes (`Nat` below); an out-of-range
  read `buffer[i]` yields `undefined` in JavaScript and is modelled by
  `List.getElem?` (`none` = `undefined`) where the distinction matters (the
  zero-terminator tests of the string decoders), and by `List.getD _ _ 0`
  where the byte is only fed to `String.fromCharCode` or to arithmetic, since
  a `Uint8Array` store and `fromCharCode` both coerce `undefined` to 0.
* JavaScript subtraction `maxPosition - position` can be negative, so guards
  compare over `Int`.
* The 32-bit signed wrap performed by the JavaScript `<<` operator is modelled
  by `toInt32`.
* Exceptions are modelled by `Except`; every operation returns the final state
  as well, because in the source the mutations performed before a `throw`
  persist on the shared stream object.
* The `while` loops of the source are modelled by structurally recursive
  functions over a fuel argument; each wrapper passes fuel equal to the number
  of bytes between the current position and the relevant bound, which bounds
  the iteration count of the corresponding source loop, so the fuel never runs
  out before the loop condition turns false.
* The chunk `name` argument is purely diagnostic in the source (only logged)
  and is omitted.
-/

/-- Signed 32-bit wrap, modelling the JavaScript ToInt32 conversion applied by
the bitwise operators in the source. -/
def toInt32 (z : Int) : Int :=
  if z % 4294967296 ≥ 2147483648 then z % 4294967296 - 4294967296 else z % 4294967296

/-- JavaScript `x << 8`: ToInt32 of the operand, times 256, wrapped to int32. -/
def shl8 (z : Int) : Int := toInt32 (toInt32 z * 256)

/-- The byte range `[a, b)` of a buffer, with the clamping performed by
Node's `Buffer.prototype.slice` and the range arguments of `toString`. -/
def extract (buf : List Nat) (a b : Nat) : List Nat := (buf.take b).drop a

/-- A JavaScript store `buffer[i] = v` into a Node `Buffer`: out-of-range
stores are ignored, and `undefined` is coerced to 0. -/
def jsSet (buf : List Nat) (i : Nat) (v : Option Nat) : List Nat := buf.set i (v.getD 0)

/-- Pair up bytes little-endian into UTF-16 code units, dropping a dangling
odd byte, as Node's ucs2 decoding does. -/
def bytesToUnitsLE : List Nat → List Nat
  | b1 :: b2 :: rest => (b1 + 256 * b2) :: bytesToUnitsLE rest
  | _ => []

/-- Turn UTF-16 code units into characters, combining surrogate pairs; a lone
surrogate becomes U+FFFD (Lean strings cannot hold lone surrogates, which is
the one place the model departs from raw JavaScript strings). -/
def unitsToChars : List Nat → List Char
  | [] => []
  | [u] =>
    if 55296 ≤ u ∧ u < 57344 then [Char.ofNat 65533] else [Char.ofNat u]
  | u :: v :: rest =>
    if 55296 ≤ u ∧ u < 56320 then
      if 56320 ≤ v ∧ v < 57344 then
        Char.ofNat (65536 + (u - 55296) * 1024 + (v - 56320)) :: unitsToChars rest
      else Char.ofNat 65533 :: unitsToChars (v :: rest)
    else if 56320 ≤ u ∧ u < 57344 then Char.ofNat 65533 :: unitsToChars (v :: rest)
    else Char.ofNat u :: unitsToChars (v :: rest)

/-- Little-endian UTF-16 decoding of a byte list (Node `toString('ucs2')`). -/
def ucs2Str (bytes : List Nat) : String := String.mk (unitsToChars (bytesToUnitsLE bytes))

/-- The source's `_ucs2(buffer, from, to, bigEndian)` helper.  The big-endian
branch copies the byte pairs of `[frm, to)` into a fresh buffer (reading 0 for
out-of-range indices, as a `Uint8Array` store of `undefined` yields 0) and
decodes it little-endian; the byte order was already swapped in place by the
caller's loop.  A dangling odd byte is never decoded in either branch. -/
def ucs2Dec (buf : List Nat) (frm hi : Nat) (bigEndian : Bool) : String :=
  if bigEndian then ucs2Str ((List.range (hi - frm)).map (fun i => buf.getD (frm + i) 0))
  else ucs2Str (extract buf frm hi)

/-- Whether a byte is a UTF-8 continuation byte. -/
def isCont (b : Nat) : Bool := decide (128 ≤ b ∧ b < 192)

/-- UTF-8 decoding of a byte list, modelling Node `toString('utf8')`:
malformed sequences decode to U+FFFD. -/
def utf8Chars : List Nat → List Char
  | [] => []
  | b1 :: t1 =>
    if b1 < 128 then Char.ofNat b1 :: utf8Chars t1
    else if b1 < 192 then Char.ofNat 65533 :: utf8Chars t1
    else if b1 < 224 then
      match t1 with
      | b2 :: t2 =>
        if isCont b2 then Char.ofNat ((b1 - 192) * 64 + (b2 - 128)) :: utf8Chars t2
        else Char.ofNat 65533 :: utf8Chars (b2 :: t2)
      | [] => [Char.ofNat 65533]
    else if b1 < 240 then
      match t1 with
      | b2 :: b3 :: t3 =>
        if isCont b2 && isCont b3 then
          Char.ofNat (((b1 - 224) * 64 + (b2 - 128)) * 64 + (b3 - 128)) :: utf8Chars t3
        else Char.ofNat 65533 :: utf8Chars (b2 :: b3 :: t3)
      | _ => [Char.ofNat 65533]
    else
      match t1 with
      | b2 :: b3 :: b4 :: t4 =>
        if isCont b2 && isCont b3 && isCont b4 then
          Char.ofNat ((((b1 - 240) * 64 + (b2 - 128)) * 64 + (b3 - 128)) * 64 + (b4 - 128)) :: utf8Chars t4
        else Char.ofNat 65533 :: utf8Chars (b2 :: b3 :: b4 :: t4)
      | _ => [Char.ofNat 65533]
termination_by l => l.length
decreasing_by all_goals simp <;> omega

/-- UTF-8 decoding to a string. -/
def utf8Str (bytes : List Nat) : String := String.mk (utf8Chars bytes)

/-- The error values thrown by the source: `ensureCapacity` throws an
`Exception` carrying `{position, maxPosition, n}`, while the string decoders
throw an `Exception` carrying only a message string. -/
inductive StreamError where
  | boundary (position : Nat) (maxPosition : Nat) (n : Int)
  | message (msg : String)
deriving DecidableEq

deriving instance DecidableEq for Except

/-- `function PullStream()` state: the buffer, the read position, and
`maxPosition` (the buffer length, set when the stream is populated). -/
structure PullStream where
  buffer : List Nat
  position : Nat
  maxPosition : Nat
deriving DecidableEq

/-- A populated pull-stream, as produced by `PullStream.prototype.fromFile`
once `fs.readFile` delivers the data: position 0, `maxPosition = data.length`. -/
def PullStream.fromBuffer (data : List Nat) : PullStream :=
  { buffer := data, position := 0, maxPosition := data.length }

/-- `PullStream.prototype.hasMore(n)`; `none` models an omitted argument. -/
def PullStream.hasMore (s : PullStream) (n : Option Int) : Bool :=
  let k := match n with | none => 1 | some k => k
  decide (¬ (k > (s.maxPosition : Int) - (s.position : Int)))

/-- `PullStream.prototype.ensureCapacity(n)`. -/
def PullStream.ensureCapacity (s : PullStream) (n : Int) : Except StreamError Unit :=
  if n > (s.maxPosition : Int) - (s.position : Int) then
    .error (.boundary s.position s.maxPosition n)
  else .ok ()

/-- `PullStream.prototype.skip(length)`. -/
def PullStream.skip (s : PullStream) (length : Int) : Except StreamError Unit × PullStream :=
  if length ≤ 0 then (.ok (), s)
  else
    match s.ensureCapacity length with
    | .error e => (.error e, s)
    | .ok _ => (.ok (), { s with position := s.position + length.toNat })

/-- `PullStream.prototype.readByte()`. -/
def PullStream.readByte (s : PullStream) : Except StreamError Nat × PullStream :=
  match s.ensureCapacity 1 with
  | .error e => (.error e, s)
  | .ok _ => (.ok (s.buffer.getD s.position 0), { s with position := s.position + 1 })

/-- `PullStream.prototype.readShort()`: `(b1<<8)+b2` (no 32-bit wrap can occur
for byte operands below the final shift of readLong, so the small shifts are
plain arithmetic). -/
def PullStream.readShort (s : PullStream) : Except StreamError Nat × PullStream :=
  match s.ensureCapacity 2 with
  | .error e => (.error e, s)
  | .ok _ =>
    let b1 := s.buffer.getD s.position 0
    let b2 := s.buffer.getD (s.position + 1) 0
    (.ok (b1 * 256 + b2), { s with position := s.position + 2 })

/-- `PullStream.prototype.read3Bytes()`: `(((b1<<8)+b2)<<8)+b3`. -/
def PullStream.read3Bytes (s : PullStream) : Except StreamError Nat × PullStream :=
  match s.ensureCapacity 3 with
  | .error e => (.error e, s)
  | .ok _ =>
    let b1 := s.buffer.getD s.position 0
    let b2 := s.buffer.getD (s.position + 1) 0
    let b3 := s.buffer.getD (s.position + 2) 0
    (.ok ((b1 * 256 + b2) * 256 + b3), { s with position := s.position + 3 })

/-- `PullStream.prototype.readLong()`: `(((((b1<<8)+b2)<<8)+b3)<<8)+b4`, where
each `<<` is the JavaScript signed 32-bit shift; the final shift can wrap to a
negative value when `b1 ≥ 0x80`. -/
def PullStream.readLong (s : PullStream) : Except StreamError Int × PullStream :=
  match s.ensureCapacity 4 with
  | .error e => (.error e, s)
  | .ok _ =>
    let b1 : Int := s.buffer.getD s.position 0
    let b2 : Int := s.buffer.getD (s.position + 1) 0
    let b3 : Int := s.buffer.getD (s.position + 2) 0
    let b4 : Int := s.buffer.getD (s.position + 3) 0
    (.ok (shl8 (shl8 (shl8 b1 + b2) + b3) + b4), { s with position := s.position + 4 })

/-- `PullStream.prototype.readASCII3()`: `String.fromCharCode(b1, b2, b3)`. -/
def PullStream.readASCII3 (s : PullStream) : Except StreamError String × PullStream :=
  match s.ensureCapacity 3 with
  | .error e => (.error e, s)
  | .ok _ =>
    let b1 := s.buffer.getD s.position 0
    let b2 := s.buffer.getD (s.position + 1) 0
    let b3 := s.buffer.getD (s.position + 2) 0
    (.ok (String.mk [Char.ofNat b1, Char.ofNat b2, Char.ofNat b3]), { s with position := s.position + 3 })

/-- `PullStream.prototype.readASCII4()`. -/
def PullStream.readASCII4 (s : PullStream) : Except StreamError String × PullStream :=
  match s.ensureCapacity 4 with
  | .error e => (.error e, s)
  | .ok _ =>
    let b1 := s.buffer.getD s.position 0
    let b2 := s.buffer.getD (s.position + 1) 0
    let b3 := s.buffer.getD (s.position + 2) 0
    let b4 := s.buffer.getD (s.position + 3) 0
    (.ok (String.mk [Char.ofNat b1, Char.ofNat b2, Char.ofNat b3, Char.ofNat b4]), { s with position := s.position + 4 })

/-- The loop of `PullStream.prototype.scan3Bytes`: while `hasMore()`, read a
byte, update `magic = ((magic & 0xFFFF) << 8) + b` (which stays below 2^24, so
no 32-bit wrap occurs), and compare with `expected`.  The fuel is the number of
remaining bytes, which bounds the iteration count of the source loop. -/
def scan3BytesAux (buf : List Nat) (maxPos expected : Nat) : Nat → Nat → Nat → Bool × Nat
  | 0, pos, _ => (false, pos)
  | fuel + 1, pos, magic =>
    if pos < maxPos then
      let magic' := (magic % 65536) * 256 + buf.getD pos 0
      if magic' = expected then (true, pos + 1)
      else scan3BytesAux buf maxPos expected fuel (pos + 1) magic'
    else (false, pos)

/-- `PullStream.prototype.scan3Bytes(expected)`. -/
def PullStream.scan3Bytes (s : PullStream) (expected : Nat) : Bool × PullStream :=
  let r := scan3BytesAux s.buffer s.maxPosition expected (s.maxPosition - s.position) s.position 0
  (r.1, { s with position := r.2 })

/-- The loop of `PullStream.prototype.scanLong`: `magic = ((magic & 0xFFFFFF)
<< 8) + b` with the JavaScript signed 32-bit shift, compared with `expected`
using JavaScript number equality (so a caller-supplied non-negative `expected`
at or above 2^31 can never compare equal to the wrapped register). -/
def scanLongAux (buf : List Nat) (maxPos : Nat) (expected : Int) : Nat → Nat → Int → Bool × Nat
  | 0, pos, _ => (false, pos)
  | fuel + 1, pos, magic =>
    if pos < maxPos then
      let magic' := toInt32 ((magic % 16777216) * 256) + (buf.getD pos 0 : Int)
      if magic' = expected then (true, pos + 1)
      else scanLongAux buf maxPos expected fuel (pos + 1) magic'
    else (false, pos)

/-- `PullStream.prototype.scanLong(expected)`. -/
def PullStream.scanLong (s : PullStream) (expected : Int) : Bool × PullStream :=
  let r := scanLongAux s.buffer s.maxPosition expected (s.maxPosition - s.position) s.position 0
  (r.1, { s with position := r.2 })

/-- `function Chunk(name, stream, length)` state: only the exclusive upper
bound; the chunk shares the stream's position and buffer. -/
structure Chunk where
  maxPosition : Nat
deriving DecidableEq

/-- The `Chunk` constructor: `maxPosition = stream.maxPosition` when no length
is given, else `stream.position + length`.  Note no clamping to the stream's
own `maxPosition` occurs. -/
def PullStream.mkChunk (s : PullStream) (length : Option Nat) : Chunk :=
  match length with
  | none => { maxPosition := s.maxPosition }
  | some len => { maxPosition := s.position + len }

/-- `Chunk.prototype.chunk(name, length)`: a sub-chunk is built from
`this.stream`, so the parent chunk's own bound plays no role. -/
def Chunk.chunk (_c : Chunk) (s : PullStream) (length : Option Nat) : Chunk :=
  s.mkChunk length

/-- `Chunk.prototype.hasMore(n)`. -/
def Chunk.hasMore (c : Chunk) (s : PullStream) (n : Option Int) : Bool :=
  let k := match n with | none => 1 | some k => k
  decide (¬ (k > (c.maxPosition : Int) - (s.position : Int)))

/-- `Chunk.prototype.ensureCapacity(n)`: checks against the chunk's own bound. -/
def Chunk.ensureCapacity (c : Chunk) (s : PullStream) (n : Int) : Except StreamError Unit :=
  if n > (c.maxPosition : Int) - (s.position : Int) then
    .error (.boundary s.position c.maxPosition n)
  else .ok ()

/-- `Chunk.prototype.extend(n)`: a falsy (zero) `maxPosition` is left alone. -/
def Chunk.extend (c : Chunk) (n : Nat) : Chunk :=
  if c.maxPosition ≠ 0 then { maxPosition := c.maxPosition + n } else c

/-- `Chunk.prototype.skip(n)`; `none` models an omitted argument (skip to the
end of the chunk). -/
def Chunk.skip (c : Chunk) (s : PullStream) (n : Option Int) : Except StreamError Unit × PullStream :=
  match n with
  | none =>
    let remaining := (c.maxPosition : Int) - (s.position : Int)
    if remaining ≤ 0 then (.ok (), s)
    else
      match c.ensureCapacity s remaining with
      | .error e => (.error e, s)
      | .ok _ => s.skip remaining
  | some k =>
    if k ≤ 0 then (.ok (), s)
    else
      match c.ensureCapacity s k with
      | .error e => (.error e, s)
      | .ok _ => s.skip k

/-- `Chunk.prototype.readByte()`: chunk-bound check, then delegate. -/
def Chunk.readByte (c : Chunk) (s : PullStream) : Except StreamError Nat × PullStream :=
  match c.ensureCapacity s 1 with
  | .error e => (.error e, s)
  | .ok _ => s.readByte

/-- `Chunk.prototype.readShort()`. -/
def Chunk.readShort (c : Chunk) (s : PullStream) : Except StreamError Nat × PullStream :=
  match c.ensureCapacity s 2 with
  | .error e => (.error e, s)
  | .ok _ => s.readShort

/-- `Chunk.prototype.read3Bytes()`. -/
def Chunk.read3Bytes (c : Chunk) (s : PullStream) : Except StreamError Nat × PullStream :=
  match c.ensureCapacity s 3 with
  | .error e => (.error e, s)
  | .ok _ => s.read3Bytes

/-- `Chunk.prototype.readLong()`. -/
def Chunk.readLong (c : Chunk) (s : PullStream) : Except StreamError Int × PullStream :=
  match c.ensureCapacity s 4 with
  | .error e => (.error e, s)
  | .ok _ => s.readLong

/-- `Chunk.prototype.readASCII3()`. -/
def Chunk.readASCII3 (c : Chunk) (s : PullStream) : Except StreamError String × PullStream :=
  match c.ensureCapacity s 3 with
  | .error e => (.error e, s)
  | .ok _ => s.readASCII3

/-- `Chunk.prototype.readASCII4()`. -/
def Chunk.readASCII4 (c : Chunk) (s : PullStream) : Except StreamError String × PullStream :=
  match c.ensureCapacity s 4 with
  | .error e => (.error e, s)
  | .ok _ => s.readASCII4

/-- The loop of `Chunk.prototype.readZString88591`: read bytes directly off
the shared buffer while `maxPosition - position > 0`, stopping at a byte that
is strictly equal to 0 (an out-of-range `undefined` does not stop it). -/
def zs88591Aux (buf : List Nat) (maxPos : Nat) : Nat → Nat → List Char → Bool × List Char × Nat
  | 0, pos, acc => (false, acc, pos)
  | fuel + 1, pos, acc =>
    if pos < maxPos then
      let b := buf[pos]?
      if b = some 0 then (true, acc, pos + 1)
      else zs88591Aux buf maxPos fuel (pos + 1) (acc ++ [Char.ofNat (b.getD 0)])
    else (false, acc, pos)

/-- `Chunk.prototype.readZString88591(allowShortRead)`.  On a missing
terminator the source throws an `Exception` built from a message only, after
the scanning loop has already advanced the shared position. -/
def Chunk.readZString88591 (c : Chunk) (s : PullStream) (allowShortRead : Bool) :
    Except StreamError String × PullStream :=
  let r := zs88591Aux s.buffer c.maxPosition (c.maxPosition - s.position) s.position []
  let s' := { s with position := r.2.2 }
  if r.1 then (.ok (String.mk r.2.1), s')
  else if allowShortRead then (.ok (String.mk r.2.1), s')
  else (.error (.message "Short read (chunk end boundary reached) when reading ISO-8859-1 string"), s')

/-- The loop of `Chunk.prototype.readZStringUTF8`: scan for a byte strictly
equal to 0 while `maxPosition - position >= 1`. -/
def zsUTF8Aux (buf : List Nat) (maxPos : Nat) : Nat → Nat → Bool × Nat
  | 0, pos => (false, pos)
  | fuel + 1, pos =>
    if pos < maxPos then
      if buf[pos]? = some 0 then (true, pos + 1)
      else zsUTF8Aux buf maxPos fuel (pos + 1)
    else (false, pos)

/-- `Chunk.prototype.readZStringUTF8(allowShortRead)`. -/
def Chunk.readZStringUTF8 (c : Chunk) (s : PullStream) (allowShortRead : Bool) :
    Except StreamError String × PullStream :=
  let frm := s.position
  let r := zsUTF8Aux s.buffer c.maxPosition (c.maxPosition - s.position) s.position
  let s' := { s with position := r.2 }
  if r.1 then (.ok (utf8Str (extract s.buffer frm (r.2 - 1))), s')
  else if allowShortRead then (.ok (utf8Str (extract s.buffer frm c.maxPosition)), s')
  else (.error (.message "Short read (chunk end boundary reached) when reading UTF-8 string"), s')

/-- Outcome of the UTF-16 scanning loop: either a terminator was found and the
string already decoded, or the loop ran out of window. -/
inductive ZU16Out where
  | done (str : String) (buf : List Nat) (pos : Nat)
  | exhausted (frm : Nat) (bigEndian : Bool) (buf : List Nat) (pos : Nat)
deriving DecidableEq

/-- The loop of `Chunk.prototype.readZStringUTF16`, faithful to the source
including the malformed-BOM in-place rewrite (a pair 0xFF,0x00 pulls in the
next byte and rewrites the buffer) and the in-place byte swap performed for
big-endian input. -/
def zsUTF16Aux (maxPos : Nat) : Nat → List Nat → Nat → Nat → Bool → ZU16Out
  | 0, buf, pos, frm, bigEndian => .exhausted frm bigEndian buf pos
  | fuel + 1, buf, pos, frm, bigEndian =>
    if pos + 1 < maxPos then
      let b1 := buf[pos]?
      let b2 := buf[pos + 1]?
      let pos' := pos + 2
      let t : Option Nat × Option Nat × List Nat :=
        if b1 = some 255 ∧ b2 = some 0 then
          let nb1 := buf[pos']?
          (nb1, some 255, jsSet (jsSet buf pos' (some 0)) (pos' - 1) nb1)
        else (b1, b2, buf)
      let c1 := t.1
      let c2 := t.2.1
      let buf' := t.2.2
      if c1 = some 255 ∧ c2 = some 254 then zsUTF16Aux maxPos fuel buf' pos' (frm + 2) bigEndian
      else if c1 = some 254 ∧ c2 = some 255 then zsUTF16Aux maxPos fuel buf' pos' (frm + 2) true
      else if c1 = some 0 ∧ c2 = some 0 then .done (ucs2Dec buf' frm (pos' - 2) false) buf' pos'
      else if bigEndian then
        zsUTF16Aux maxPos fuel (jsSet (jsSet buf' (pos' - 2) c2) (pos' - 1) c1) pos' frm bigEndian
      else zsUTF16Aux maxPos fuel buf' pos' frm bigEndian
    else .exhausted frm bigEndian buf pos

/-- `Chunk.prototype.readZStringUTF16(allowShortRead)`. -/
def Chunk.readZStringUTF16 (c : Chunk) (s : PullStream) (allowShortRead : Bool) :
    Except StreamError String × PullStream :=
  match zsUTF16Aux c.maxPosition (c.maxPosition - s.position) s.buffer s.position s.position false with
  | .done str buf pos => (.ok str, { s with buffer := buf, position := pos })
  | .exhausted frm bigEndian buf pos =>
    if allowShortRead then
      (.ok (ucs2Dec buf frm c.maxPosition bigEndian), { s with buffer := buf, position := pos })
    else
      (.error (.message "Short read (chunk end boundary reached) when reading UTF-16 string"),
        { s with buffer := buf, position := pos })

/-- The loop of `Chunk.prototype.readString88591`: decode byte-by-byte up to
the chunk bound, advancing the shared position. -/
def s88591Aux (buf : List Nat) (maxPos : Nat) : Nat → Nat → List Char → List Char × Nat
  | 0, pos, acc => (acc, pos)
  | fuel + 1, pos, acc =>
    if pos < maxPos then s88591Aux buf maxPos fuel (pos + 1) (acc ++ [Char.ofNat (buf.getD pos 0)])
    else (acc, pos)

/-- `Chunk.prototype.readString88591()`: never throws. -/
def Chunk.readString88591 (c : Chunk) (s : PullStream) : String × PullStream :=
  let r := s88591Aux s.buffer c.maxPosition (c.maxPosition - s.position) s.position []
  (String.mk r.1, { s with position := r.2 })

/-- `Chunk.prototype.readStringUTF8()`: decode `[position, maxPosition)`,
leaving the shared position untouched. -/
def Chunk.readStringUTF8 (c : Chunk) (s : PullStream) : String × PullStream :=
  (utf8Str (extract s.buffer s.position c.maxPosition), s)

/-- `Chunk.prototype.readStringUTF16()`: decode `[position, maxPosition)` as
little-endian UTF-16, leaving the shared position untouched. -/
def Chunk.readStringUTF16 (c : Chunk) (s : PullStream) : String × PullStream :=
  (ucs2Str (extract s.buffer s.position c.maxPosition), s)

/-- `Chunk.prototype.readBuffer()`: the byte range `[position, maxPosition)`,
shared position untouched. -/
def Chunk.readBuffer (c : Chunk) (s : PullStream) : List Nat × PullStream :=
  (extract s.buffer s.position c.maxPosition, s)

/-- The fixed-width read operations shared by `PullStream` and `Chunk`. -/
inductive FixedOp where
  | rByte | rShort | r3Bytes | rLong | rASCII3 | rASCII4
deriving DecidableEq

/-- The byte width each fixed-width operation consumes and checks for. -/
def FixedOp.width : FixedOp → Nat
  | .rByte => 1
  | .rShort => 2
  | .r3Bytes => 3
  | .rLong => 4
  | .rASCII3 => 3
  | .rASCII4 => 4

/-- Forget the value of an operation, keeping the error and the state. -/
def discardVal {α : Type} (r : Except StreamError α × PullStream) : Except StreamError Unit × PullStream :=
  (r.1.map (fun _ => ()), r.2)

/-- Dispatch a fixed-width operation on the stream. -/
def PullStream.applyFixed (s : PullStream) : FixedOp → Except StreamError Unit × PullStream
  | .rByte => discardVal s.readByte
  | .rShort => discardVal s.readShort
  | .r3Bytes => discardVal s.read3Bytes
  | .rLong => discardVal s.readLong
  | .rASCII3 => discardVal s.readASCII3
  | .rASCII4 => discardVal s.readASCII4

/-- Dispatch a fixed-width operation through a chunk. -/
def Chunk.applyFixed (c : Chunk) (s : PullStream) : FixedOp → Except StreamError Unit × PullStream
  | .rByte => discardVal (c.readByte s)
  | .rShort => discardVal (c.readShort s)
  | .r3Bytes => discardVal (c.read3Bytes s)
  | .rLong => discardVal (c.readLong s)
  | .rASCII3 => discardVal (c.readASCII3 s)
  | .rASCII4 => discardVal (c.readASCII4 s)

/-- The operations issuable directly on a stream. -/
inductive StreamOp where
  | fixed (op : FixedOp)
  | skipOp (n : Int)
  | scan3 (x : Nat)
  | scanL (x : Int)
deriving DecidableEq

/-- The operations issuable through a chunk. -/
inductive ChunkOp where
  | fixed (op : FixedOp)
  | skipOp (n : Option Int)
  | zs88591 (allow : Bool)
  | zsUTF8 (allow : Bool)
  | zsUTF16 (allow : Bool)
  | s88591
  | sUTF8
  | sUTF16
  | rBuffer
deriving DecidableEq

/-- One operation in a usage history: either on the stream directly, or
through a window whose upper bound is `bound` at the time of the call (this
covers every window derivable by construction and `extend`, since a chunk
operation's effect on the stream depends only on the bound's value). -/
inductive Op where
  | onStream (op : StreamOp)
  | onChunk (bound : Nat) (op : ChunkOp)
deriving DecidableEq

/-- Apply one operation to the shared stream state, keeping the post-state
whether the operation returned or threw. -/
def applyOp (s : PullStream) : Op → PullStream
  | .onStream (.fixed f) => (s.applyFixed f).2
  | .onStream (.skipOp n) => (s.skip n).2
  | .onStream (.scan3 x) => (s.scan3Bytes x).2
  | .onStream (.scanL x) => (s.scanLong x).2
  | .onChunk b (.fixed f) => (Chunk.applyFixed { maxPosition := b } s f).2
  | .onChunk b (.skipOp n) => (Chunk.skip { maxPosition := b } s n).2
  | .onChunk b (.zs88591 a) => (Chunk.readZString88591 { maxPosition := b } s a).2
  | .onChunk b (.zsUTF8 a) => (Chunk.readZStringUTF8 { maxPosition := b } s a).2
  | .onChunk b (.zsUTF16 a) => (Chunk.readZStringUTF16 { maxPosition := b } s a).2
  | .onChunk b .s88591 => (Chunk.readString88591 { maxPosition := b } s).2
  | .onChunk b .sUTF8 => (Chunk.readStringUTF8 { maxPosition := b } s).2
  | .onChunk b .sUTF16 => (Chunk.readStringUTF16 { maxPosition := b } s).2
  | .onChunk b .rBuffer => (Chunk.readBuffer { maxPosition := b } s).2

/-- A populated stream in a consistent state: `maxPosition` is the buffer
length and the position is within bounds. -/
def PullStream.wf (s : PullStream) : Prop :=
  s.maxPosition = s.buffer.length ∧ s.position ≤ s.maxPosition

/-- Whether the byte-by-byte chunk string decoders appear in an operation;
these are the operations that check capacity only against the window's bound. -/
def ChunkOp.decodesByBytes : ChunkOp → Bool
  | .zs88591 _ => true
  | .zsUTF8 _ => true
  | .zsUTF16 _ => true
  | .s88591 => true
  | _ => false

/-- The side condition of the amended cursor invariant: windows through which
a byte-by-byte string decoder is issued must not out-bound the cursor. -/
def Op.boundOK (op : Op) (len : Nat) : Prop :=
  match op with
  | .onStream _ => True
  | .onChunk b cop => cop.decodesByBytes = true → b ≤ len

/-- The buffer carried out of the UTF-16 scanning loop. -/
def ZU16Out.outBuf : ZU16Out → List Nat
  | .done _ b _ => b
  | .exhausted _ _ b _ => b

/-- The shared position carried out of the UTF-16 scanning loop. -/
def ZU16Out.outPos : ZU16Out → Nat
  | .done _ _ p => p
  | .exhausted _ _ _ p => p

/-- Whether the UTF-16 scanning loop ran out of window without finding the
double-zero terminator. -/
def ZU16Out.isExhausted : ZU16Out → Bool
  | .done _ _ _ => false
  | .exhausted _ _ _ _ => true

/-- The big-endian value of the three bytes of `buf` at offset `k`. -/
def beVal3 (buf : List Nat) (k : Nat) : Nat :=
  (buf.getD k 0 * 256 + buf.getD (k + 1) 0) * 256 + buf.getD (k + 2) 0

/-- The 3-byte pattern with value `x` occurs in `buf` at offset `k`. -/
def occurs3At (buf : List Nat) (x k : Nat) : Prop :=
  k + 3 ≤ buf.length ∧ beVal3 buf k = x

instance (buf : List Nat) (x k : Nat) : Decidable (occurs3At buf x k) := by
  unfold occurs3At; infer_instance

/-- The big-endian value of the four bytes of `buf` at offset `k`. -/
def beVal4 (buf : List Nat) (k : Nat) : Nat :=
  ((buf.getD k 0 * 256 + buf.getD (k + 1) 0) * 256 + buf.getD (k + 2) 0) * 256 + buf.getD (k + 3) 0

/-- The 4-byte pattern with value `x` occurs in `buf` at offset `k`. -/
def occurs4At (buf : List Nat) (x k : Nat) : Prop :=
  k + 4 ≤ buf.length ∧ beVal4 buf k = x

instance (buf : List Nat) (x k : Nat) : Decidable (occurs4At buf x k) := by
  unfold occurs4At; infer_instance

/-- The zero-padded prefix seen by the 3-byte rolling scan register
(the register starts at zero, which acts like three zero bytes in front of
the buffer). -/
def pad3 (buf : List Nat) : List Nat := 0 :: 0 :: 0 :: buf

/-- The value of the 3-byte rolling register after the scan has consumed `j`
bytes of `buf`. -/
def win3 (buf : List Nat) (j : Nat) : Nat :=
  ((pad3 buf).getD j 0 * 256 + (pad3 buf).getD (j + 1) 0) * 256 + (pad3 buf).getD (j + 2) 0

/-- The zero-padded prefix seen by the 4-byte rolling scan register. -/
def pad4 (buf : List Nat) : List Nat := 0 :: 0 :: 0 :: 0 :: buf

/-- The (unwrapped) value of the 4-byte rolling register after the scan has
consumed `j` bytes of `buf`. -/
def win4 (buf : List Nat) (j : Nat) : Nat :=
  (((pad4 buf).getD j 0 * 256 + (pad4 buf).getD (j + 1) 0) * 256 + (pad4 buf).getD (j + 2) 0) * 256
    + (pad4 buf).getD (j + 3) 0

/-! Helper lemmas about the 32-bit wrap. -/

theorem toInt32_lt (z : Int) : toInt32 z < 2147483648 := by
  unfold toInt32; split <;> omega

theorem toInt32_ge (z : Int) : -2147483648 ≤ toInt32 z := by
  unfold toInt32; split <;> omega

theorem toInt32_of_lt {z : Int} (h0 : 0 ≤ z) (h1 : z < 2147483648) : toInt32 z = z := by
  unfold toInt32; split <;> omega

theorem toInt32_add_byte {z b : Int} (hz : z % 256 = 0) (h0 : 0 ≤ z) (h1 : z < 4294967296)
    (hb0 : 0 ≤ b) (hb : b < 256) : toInt32 z + b = toInt32 (z + b) := by
  unfold toInt32; split <;> split <;> omega

theorem toInt32_eq_iff {w x : Int} (hw0 : 0 ≤ w) (hw : w < 4294967296) (hx0 : 0 ≤ x)
    (hx : x < 2147483648) : toInt32 w = x ↔ w = x := by
  unfold toInt32; split <;> omega

/-! Characterizations of the fixed-width operations and skips. -/

theorem streamApplyFixed_eq (s : PullStream) (f : FixedOp) :
    s.applyFixed f =
      if (f.width : Int) > (s.maxPosition : Int) - (s.position : Int) then
        (.error (.boundary s.position s.maxPosition (f.width : Int)), s)
      else (.ok (), { s with position := s.position + f.width }) := by
  cases f <;>
    simp only [PullStream.applyFixed, PullStream.readByte, PullStream.readShort,
      PullStream.read3Bytes, PullStream.readLong, PullStream.readASCII3, PullStream.readASCII4,
      PullStream.ensureCapacity, FixedOp.width, discardVal, Nat.cast_one, Nat.cast_ofNat] <;>
    split_ifs <;> simp_all [Except.map]

theorem chunkApplyFixed_eq (c : Chunk) (s : PullStream) (f : FixedOp) :
    c.applyFixed s f =
      if (f.width : Int) > (c.maxPosition : Int) - (s.position : Int) then
        (.error (.boundary s.position c.maxPosition (f.width : Int)), s)
      else s.applyFixed f := by
  cases f <;>
    simp only [Chunk.applyFixed, Chunk.readByte, Chunk.readShort, Chunk.read3Bytes,
      Chunk.readLong, Chunk.readASCII3, Chunk.readASCII4, Chunk.ensureCapacity,
      PullStream.applyFixed, FixedOp.width, discardVal, Nat.cast_one, Nat.cast_ofNat] <;>
    split_ifs <;> simp_all [Except.map]

theorem PullStream.skip_eq (s : PullStream) (n : Int) :
    s.skip n =
      if n ≤ 0 then (.ok (), s)
      else if n > (s.maxPosition : Int) - (s.position : Int) then
        (.error (.boundary s.position s.maxPosition n), s)
      else (.ok (), { s with position := s.position + n.toNat }) := by
  unfold PullStream.skip PullStream.ensureCapacity
  split_ifs <;> simp_all

/-! Position bounds for the scanning and decoding loops. -/

theorem scan3BytesAux_pos_le (buf : List Nat) (maxPos x : Nat) :
    ∀ fuel pos magic, (scan3BytesAux buf maxPos x fuel pos magic).2 ≤ max pos maxPos := by
  intro fuel
  induction fuel with
  | zero => intro pos magic; simp [scan3BytesAux]
  | succ k ih =>
    intro pos magic
    simp only [scan3BytesAux]
    split_ifs with h1 h2
    · simp; omega
    · exact le_trans (ih (pos + 1) _) (by omega)
    · simp

theorem scanLongAux_pos_le (buf : List Nat) (maxPos : Nat) (x : Int) :
    ∀ fuel pos magic, (scanLongAux buf maxPos x fuel pos magic).2 ≤ max pos maxPos := by
  intro fuel
  induction fuel with
  | zero => intro pos magic; simp [scanLongAux]
  | succ k ih =>
    intro pos magic
    simp only [scanLongAux]
    split_ifs with h1 h2
    · simp; omega
    · exact le_trans (ih (pos + 1) _) (by omega)
    · simp

theorem zs88591Aux_pos_le (buf : List Nat) (maxPos : Nat) :
    ∀ fuel pos acc, (zs88591Aux buf maxPos fuel pos acc).2.2 ≤ max pos maxPos := by
  intro fuel
  induction fuel with
  | zero => intro pos acc; simp [zs88591Aux]
  | succ k ih =>
    intro pos acc
    simp only [zs88591Aux]
    split_ifs with h1 h2
    · simp; omega
    · exact le_trans (ih (pos + 1) _) (by omega)
    · simp

theorem zsUTF8Aux_pos_le (buf : List Nat) (maxPos : Nat) :
    ∀ fuel pos, (zsUTF8Aux buf maxPos fuel pos).2 ≤ max pos maxPos := by
  intro fuel
  induction fuel with
  | zero => intro pos; simp [zsUTF8Aux]
  | succ k ih =>
    intro pos
    simp only [zsUTF8Aux]
    split_ifs with h1 h2
    · simp; omega
    · exact le_trans (ih (pos + 1)) (by omega)
    · simp

theorem s88591Aux_pos_le (buf : List Nat) (maxPos : Nat) :
    ∀ fuel pos acc, (s88591Aux buf maxPos fuel pos acc).2 ≤ max pos maxPos := by
  intro fuel
  induction fuel with
  | zero => intro pos acc; simp [s88591Aux]
  | succ k ih =>
    intro pos acc
    simp only [s88591Aux]
    split_ifs with h1
    · exact le_trans (ih (pos + 1) _) (by omega)
    · simp

theorem jsSet_length (buf : List Nat) (i : Nat) (v : Option Nat) :
    (jsSet buf i v).length = buf.length := by
  simp [jsSet]

theorem zsUTF16Aux_out (maxPos : Nat) :
    ∀ fuel buf pos frm bE,
      (zsUTF16Aux maxPos fuel buf pos frm bE).outPos ≤ max pos maxPos ∧
      (zsUTF16Aux maxPos fuel buf pos frm bE).outBuf.length = buf.length := by
  intro fuel
  induction fuel with
  | zero => intro buf pos frm bE; simp [zsUTF16Aux, ZU16Out.outPos, ZU16Out.outBuf]
  | succ k ih =>
    intro buf pos frm bE
    simp only [zsUTF16Aux]
    split_ifs with h1 h2 h3 h4 h5 h6
    all_goals try dsimp only
    all_goals refine ⟨?_, ?_⟩
    all_goals try (refine le_trans (ih _ _ _ _).1 ?_; omega)
    all_goals try (rw [(ih _ _ _ _).2]; try simp [jsSet_length])
    all_goals try (simp only [ZU16Out.outPos]; omega)
    all_goals (simp only [ZU16Out.outBuf]; try simp [jsSet_length])

/-! State characterizations and invariant preservation. -/

theorem Chunk.readZString88591_state (c : Chunk) (s : PullStream) (a : Bool) :
    (Chunk.readZString88591 c s a).2 =
      { s with position := (zs88591Aux s.buffer c.maxPosition (c.maxPosition - s.position) s.position []).2.2 } := by
  unfold Chunk.readZString88591
  dsimp only
  split_ifs <;> rfl

theorem Chunk.readZStringUTF8_state (c : Chunk) (s : PullStream) (a : Bool) :
    (Chunk.readZStringUTF8 c s a).2 =
      { s with position := (zsUTF8Aux s.buffer c.maxPosition (c.maxPosition - s.position) s.position).2 } := by
  unfold Chunk.readZStringUTF8
  dsimp only
  split_ifs <;> rfl

theorem Chunk.readZStringUTF16_state (c : Chunk) (s : PullStream) (a : Bool) :
    (Chunk.readZStringUTF16 c s a).2 =
      { s with
        buffer := (zsUTF16Aux c.maxPosition (c.maxPosition - s.position) s.buffer s.position s.position false).outBuf,
        position := (zsUTF16Aux c.maxPosition (c.maxPosition - s.position) s.buffer s.position s.position false).outPos } := by
  unfold Chunk.readZStringUTF16
  rcases h : zsUTF16Aux c.maxPosition (c.maxPosition - s.position) s.buffer s.position s.position false with
    ⟨str, b, p⟩ | ⟨f, be, b, p⟩
  · simp [h, ZU16Out.outBuf, ZU16Out.outPos]
  · split_ifs <;> simp [h, ZU16Out.outBuf, ZU16Out.outPos]

theorem applyFixed_wf {s : PullStream} (f : FixedOp) (h : s.wf) :
    ((s.applyFixed f).2).wf ∧ (s.applyFixed f).2.maxPosition = s.maxPosition := by
  rw [streamApplyFixed_eq]
  split_ifs with hg
  · exact ⟨h, rfl⟩
  · refine ⟨⟨h.1, ?_⟩, rfl⟩
    dsimp
    omega

theorem skip_wf {s : PullStream} (n : Int) (h : s.wf) :
    ((s.skip n).2).wf ∧ (s.skip n).2.maxPosition = s.maxPosition := by
  rw [PullStream.skip_eq]
  split_ifs with hg1 hg2
  · exact ⟨h, rfl⟩
  · exact ⟨h, rfl⟩
  · refine ⟨⟨h.1, ?_⟩, rfl⟩
    dsimp
    omega

theorem applyOp_preserves (s : PullStream) (op : Op) (h : s.wf) (hb : op.boundOK s.maxPosition) :
    (applyOp s op).wf ∧ (applyOp s op).maxPosition = s.maxPosition := by
  cases op with
  | onStream sop =>
    cases sop with
    | fixed f =>
      simp only [applyOp]
      exact applyFixed_wf f h
    | skipOp n =>
      simp only [applyOp]
      exact skip_wf n h
    | scan3 x =>
      have hle := scan3BytesAux_pos_le s.buffer s.maxPosition x (s.maxPosition - s.position) s.position 0
      have hpos := h.2
      refine ⟨⟨h.1, ?_⟩, rfl⟩
      simp only [applyOp, PullStream.scan3Bytes]
      omega
    | scanL x =>
      have hle := scanLongAux_pos_le s.buffer s.maxPosition x (s.maxPosition - s.position) s.position 0
      have hpos := h.2
      refine ⟨⟨h.1, ?_⟩, rfl⟩
      simp only [applyOp, PullStream.scanLong]
      omega
  | onChunk b cop =>
    cases cop with
    | fixed f =>
      simp only [applyOp]
      rw [chunkApplyFixed_eq]
      split_ifs with hg
      · exact ⟨h, rfl⟩
      · exact applyFixed_wf f h
    | skipOp n =>
      simp only [applyOp]
      cases n with
      | none =>
        unfold Chunk.skip Chunk.ensureCapacity
        dsimp only
        split_ifs with hg1 hg2
        · exact ⟨h, rfl⟩
        · exact ⟨h, rfl⟩
        · exact skip_wf _ h
      | some k =>
        unfold Chunk.skip Chunk.ensureCapacity
        dsimp only
        split_ifs with hg1 hg2
        · exact ⟨h, rfl⟩
        · exact ⟨h, rfl⟩
        · exact skip_wf _ h
    | zs88591 a =>
      have hbb : b ≤ s.maxPosition := hb rfl
      have hle := zs88591Aux_pos_le s.buffer b (b - s.position) s.position []
      have hpos := h.2
      have hstate : applyOp s (Op.onChunk b (ChunkOp.zs88591 a)) =
          { s with position := (zs88591Aux s.buffer b (b - s.position) s.position []).2.2 } := by
        simp only [applyOp]
        rw [Chunk.readZString88591_state]
      rw [hstate]
      exact ⟨⟨h.1, by dsimp; omega⟩, rfl⟩
    | zsUTF8 a =>
      have hbb : b ≤ s.maxPosition := hb rfl
      have hle := zsUTF8Aux_pos_le s.buffer b (b - s.position) s.position
      have hpos := h.2
      have hstate : applyOp s (Op.onChunk b (ChunkOp.zsUTF8 a)) =
          { s with position := (zsUTF8Aux s.buffer b (b - s.position) s.position).2 } := by
        simp only [applyOp]
        rw [Chunk.readZStringUTF8_state]
      rw [hstate]
      exact ⟨⟨h.1, by dsimp; omega⟩, rfl⟩
    | zsUTF16 a =>
      have hbb : b ≤ s.maxPosition := hb rfl
      obtain ⟨hp, hlen⟩ := zsUTF16Aux_out b (b - s.position) s.buffer s.position s.position false
      have hpos := h.2
      have hstate : applyOp s (Op.onChunk b (ChunkOp.zsUTF16 a)) =
          { s with
            buffer := (zsUTF16Aux b (b - s.position) s.buffer s.position s.position false).outBuf,
            position := (zsUTF16Aux b (b - s.position) s.buffer s.position s.position false).outPos } := by
        simp only [applyOp]
        rw [Chunk.readZStringUTF16_state]
      rw [hstate]
      exact ⟨⟨by dsimp; rw [hlen]; exact h.1, by dsimp; omega⟩, rfl⟩
    | s88591 =>
      have hbb : b ≤ s.maxPosition := hb rfl
      have hle := s88591Aux_pos_le s.buffer b (b - s.position) s.position []
      have hpos := h.2
      have hstate : applyOp s (Op.onChunk b ChunkOp.s88591) =
          { s with position := (s88591Aux s.buffer b (b - s.position) s.position []).2 } := rfl
      rw [hstate]
      exact ⟨⟨h.1, by dsimp; omega⟩, rfl⟩
    | sUTF8 =>
      exact ⟨h, rfl⟩
    | sUTF16 =>
      exact ⟨h, rfl⟩
    | rBuffer =>
      exact ⟨h, rfl⟩

theorem applyOps_preserves (ops : List Op) : ∀ (s : PullStream), s.wf →
    (∀ op ∈ ops, op.boundOK s.maxPosition) →
    (ops.foldl applyOp s).wf ∧ (ops.foldl applyOp s).maxPosition = s.maxPosition := by
  induction ops with
  | nil => intro s h _; exact ⟨h, rfl⟩
  | cons o rest ih =>
    intro s h hb
    have h1 := applyOp_preserves s o h (hb o (by simp))
    have h2 := ih (applyOp s o) h1.1 (by intro op hop; rw [h1.2]; exact hb op (by simp [hop]))
    simp only [List.foldl_cons]
    exact ⟨h2.1, h2.2.trans h1.2⟩

/-- C1 (amended): for every populated ByteCursor and every sequence of
operations issued on it directly or through Windows, the cursor position
satisfies 0 <= position <= length, PROVIDED every byte-by-byte string decoder
(readZString88591, readZStringUTF8, readZStringUTF16, readString88591) is
issued through a Window whose upperBound is at most the cursor's length; the
fixed-width reads, skips and scans keep the invariant unconditionally, but the
string decoders check capacity only against the Window's own upperBound. -/
theorem claim1_position_invariant (s0 : PullStream) (ops : List Op)
    (h0 : s0.wf) (hb : ∀ op ∈ ops, op.boundOK s0.maxPosition) :
    (ops.foldl applyOp s0).position ≤ (ops.foldl applyOp s0).buffer.length := by
  obtain ⟨⟨h1, h2⟩, _⟩ := applyOps_preserves ops s0 h0 hb
  omega

/-- C1 witness: a concrete run (a fixed-width read, then a window string
decode) keeps the position within the buffer length. -/
theorem claim1_position_invariant_witness :
    ([Op.onStream (StreamOp.fixed FixedOp.rByte),
      Op.onChunk 2 (ChunkOp.zs88591 true)].foldl applyOp
        (PullStream.fromBuffer [80, 117])).position ≤
    ([Op.onStream (StreamOp.fixed FixedOp.rByte),
      Op.onChunk 2 (ChunkOp.zs88591 true)].foldl applyOp
        (PullStream.fromBuffer [80, 117])).buffer.length :=
  claim1_position_invariant (PullStream.fromBuffer [80, 117])
    [Op.onStream (StreamOp.fixed FixedOp.rByte), Op.onChunk 2 (ChunkOp.zs88591 true)]
    ⟨rfl, by decide⟩
    (by
      intro op hop
      fin_cases hop
      · exact trivial
      · intro _; decide)

/-- C1 counterexample: on a populated cursor of length 0, reading the whole
window of a Chunk of declared length 2 through readString88591 pushes the
shared position to 2, past the cursor's length, refuting the claim as stated
(the decoder checks capacity only against the window's upperBound). -/
theorem claim1_counterexample :
    ¬ ((applyOp (PullStream.fromBuffer []) (Op.onChunk 2 ChunkOp.s88591)).position ≤
        (applyOp (PullStream.fromBuffer []) (Op.onChunk 2 ChunkOp.s88591)).buffer.length) := by
  decide

/-- C2: a sub-window built from an existing Window with an explicit length K
gets upperBound = shared position + K regardless of the parent's upperBound,
and a fixed-width read that fits in the child (and in the cursor) succeeds
where the same read through the parent fails with a short-read error. -/
theorem claim2_subwindow_not_clamped (p : Chunk) (s : PullStream) (K : Nat) (f : FixedOp)
    (hK : f.width ≤ K)
    (hlen : s.position + f.width ≤ s.maxPosition)
    (hp : p.maxPosition < s.position + f.width) :
    (Chunk.chunk p s (some K)).maxPosition = s.position + K ∧
    (Chunk.applyFixed (Chunk.chunk p s (some K)) s f).1 = .ok () ∧
    Chunk.applyFixed p s f = (.error (.boundary s.position p.maxPosition (f.width : Int)), s) := by
  refine ⟨rfl, ?_, ?_⟩
  · rw [chunkApplyFixed_eq]
    rw [if_neg (by simp only [Chunk.chunk, PullStream.mkChunk]; push_cast; omega)]
    rw [streamApplyFixed_eq, if_neg (by push_cast; omega)]
  · rw [chunkApplyFixed_eq, if_pos (by push_cast; omega)]

/-- C2 witness: on a 3-byte cursor, a parent window of length 1 and a child of
length 3 derived from it; readShort succeeds through the child and fails
through the parent. -/
theorem claim2_subwindow_not_clamped_witness :
    (Chunk.chunk { maxPosition := 1 } (PullStream.fromBuffer [1, 2, 3]) (some 3)).maxPosition = 3 ∧
    (Chunk.applyFixed (Chunk.chunk { maxPosition := 1 } (PullStream.fromBuffer [1, 2, 3])
        (some 3)) (PullStream.fromBuffer [1, 2, 3]) FixedOp.rShort).1 = .ok () ∧
    Chunk.applyFixed { maxPosition := 1 } (PullStream.fromBuffer [1, 2, 3]) FixedOp.rShort =
      (.error (.boundary 0 1 2), PullStream.fromBuffer [1, 2, 3]) :=
  claim2_subwindow_not_clamped { maxPosition := 1 } (PullStream.fromBuffer [1, 2, 3]) 3
    FixedOp.rShort (by decide) (by decide) (by decide)

/-- C3 (amended): a Window's upperBound satisfies upperBound <= cursor.length
immediately after construction without an explicit length; with an explicit
length K the upperBound equals position + K, which respects the bound exactly
when position + K <= cursor.length.  The claim as stated fails: neither the
constructor nor extend clamps the upperBound to the cursor's length. -/
theorem claim3_upperbound_amended (s : PullStream) (K : Nat)
    (hwf : s.maxPosition = s.buffer.length) :
    (s.mkChunk none).maxPosition ≤ s.buffer.length ∧
    (s.mkChunk (some K)).maxPosition = s.position + K ∧
    (s.position + K ≤ s.buffer.length → (s.mkChunk (some K)).maxPosition ≤ s.buffer.length) := by
  refine ⟨?_, rfl, fun h => ?_⟩
  · simp only [PullStream.mkChunk]
    omega
  · simp only [PullStream.mkChunk]
    omega

/-- C3 witness: instantiation on a concrete 2-byte cursor with K = 1. -/
theorem claim3_upperbound_amended_witness :
    ((PullStream.fromBuffer [7, 9]).mkChunk none).maxPosition ≤ 2 ∧
    ((PullStream.fromBuffer [7, 9]).mkChunk (some 1)).maxPosition = 0 + 1 ∧
    (0 + 1 ≤ 2 → ((PullStream.fromBuffer [7, 9]).mkChunk (some 1)).maxPosition ≤ 2) :=
  claim3_upperbound_amended (PullStream.fromBuffer [7, 9]) 1 rfl

/-- C3 counterexample: a Window constructed on an empty populated cursor with
explicit length 5 has upperBound 5 > cursor.length 0, immediately after
construction, refuting the claimed invariant. -/
theorem claim3_counterexample :
    ¬ ((PullStream.mkChunk (PullStream.fromBuffer []) (some 5)).maxPosition ≤
        (PullStream.fromBuffer []).buffer.length) := by
  decide

/-- C10: extend(n) adds exactly n to a non-zero upperBound, but a Window whose
upperBound is 0 (e.g. built with length 0 at shared position 0) is left
unchanged by extend, because the source guards the update with a truthiness
test on maxPosition. -/
theorem claim10_extend_falsy_zero (c : Chunk) (n : Nat) (s : PullStream) :
    (c.maxPosition ≠ 0 → (c.extend n).maxPosition = c.maxPosition + n) ∧
    (c.maxPosition = 0 → (c.extend n).maxPosition = 0) ∧
    (s.position = 0 → ((s.mkChunk (some 0)).extend n).maxPosition = 0) := by
  refine ⟨fun h => by simp [Chunk.extend, h], fun h => by simp [Chunk.extend, h], fun h => ?_⟩
  simp [PullStream.mkChunk, Chunk.extend, h]

/-- C10 witness: extend 3 on upperBound 5 gives 8; extend 3 on upperBound 0
leaves 0, also for the window of length 0 taken at position 0. -/
theorem claim10_extend_falsy_zero_witness :
    (({ maxPosition := 5 } : Chunk).maxPosition ≠ 0 →
      (({ maxPosition := 5 } : Chunk).extend 3).maxPosition = 5 + 3) ∧
    (({ maxPosition := 5 } : Chunk).maxPosition = 0 →
      (({ maxPosition := 5 } : Chunk).extend 3).maxPosition = 0) ∧
    ((PullStream.fromBuffer [1, 2]).position = 0 →
      (((PullStream.fromBuffer [1, 2]).mkChunk (some 0)).extend 3).maxPosition = 0) :=
  claim10_extend_falsy_zero { maxPosition := 5 } 3 (PullStream.fromBuffer [1, 2])


theorem zs88591Aux_exhaust_pos (buf : List Nat) (maxPos : Nat) :
    ∀ fuel pos acc, maxPos ≤ pos + fuel → pos ≤ maxPos →
      (zs88591Aux buf maxPos fuel pos acc).1 = false →
      (zs88591Aux buf maxPos fuel pos acc).2.2 = maxPos := by
  intro fuel
  induction fuel with
  | zero =>
    intro pos acc hf hp _
    simp only [zs88591Aux]
    omega
  | succ k ih =>
    intro pos acc hf hp hfalse
    by_cases h : pos < maxPos
    · by_cases hz : buf[pos]? = some 0
      · exfalso
        simp [zs88591Aux, h, hz] at hfalse
      · simp only [zs88591Aux] at hfalse ⊢
        rw [if_pos h, if_neg hz] at hfalse ⊢
        exact ih (pos + 1) _ (by omega) (by omega) hfalse
    · simp only [zs88591Aux]
      rw [if_neg h]
      dsimp only
      omega

theorem zsUTF8Aux_exhaust_pos (buf : List Nat) (maxPos : Nat) :
    ∀ fuel pos, maxPos ≤ pos + fuel → pos ≤ maxPos →
      (zsUTF8Aux buf maxPos fuel pos).1 = false →
      (zsUTF8Aux buf maxPos fuel pos).2 = maxPos := by
  intro fuel
  induction fuel with
  | zero =>
    intro pos hf hp _
    simp only [zsUTF8Aux]
    omega
  | succ k ih =>
    intro pos hf hp hfalse
    by_cases h : pos < maxPos
    · by_cases hz : buf[pos]? = some 0
      · exfalso
        simp [zsUTF8Aux, h, hz] at hfalse
      · simp only [zsUTF8Aux] at hfalse ⊢
        rw [if_pos h, if_neg hz] at hfalse ⊢
        exact ih (pos + 1) (by omega) (by omega) hfalse
    · simp only [zsUTF8Aux]
      rw [if_neg h]
      dsimp only
      omega

theorem zsUTF16Aux_exhaust_pos (maxPos : Nat) :
    ∀ fuel buf pos frm bE, maxPos ≤ pos + fuel →
      (zsUTF16Aux maxPos fuel buf pos frm bE).isExhausted = true →
      maxPos ≤ (zsUTF16Aux maxPos fuel buf pos frm bE).outPos + 1 := by
  intro fuel
  induction fuel with
  | zero =>
    intro buf pos frm bE hf _
    simp only [zsUTF16Aux, ZU16Out.outPos]
    omega
  | succ k ih =>
    intro buf pos frm bE hf hex
    simp only [zsUTF16Aux] at hex ⊢
    split_ifs at hex ⊢ with h1 h2 h3 h4 h5 h6
    all_goals try (refine ih _ _ _ _ ?_ hex; omega)
    all_goals try (simp only [ZU16Out.outPos]; omega)
    all_goals simp [ZU16Out.isExhausted] at hex

/-- C4 (amended): every boundary violation on a fixed-width read or a skip —
on the cursor or through a Window — raises a synchronous error that carries
the current position, the effective upper bound and the requested byte count,
and leaves the shared state unchanged.  The readZString decoders
(readZString88591, readZStringUTF8, readZStringUTF16 with allowShortRead
false), however, raise a message-only error on a missing terminator (no
position, bound or count fields) AFTER the scanning loop has already
advanced the shared position: readZString88591 and readZStringUTF8 leave it
at the window's upperBound (when the scan starts inside the window), while
readZStringUTF16, which consumes byte pairs, stops as soon as fewer than two
bytes remain in the window — one byte short of upperBound when the window
width is odd. -/
theorem claim4_boundary_error_amended (s : PullStream) (c : Chunk) (f : FixedOp) (n : Int) :
    ((f.width : Int) > (s.maxPosition : Int) - (s.position : Int) →
      s.applyFixed f = (.error (.boundary s.position s.maxPosition (f.width : Int)), s)) ∧
    ((f.width : Int) > (c.maxPosition : Int) - (s.position : Int) →
      Chunk.applyFixed c s f = (.error (.boundary s.position c.maxPosition (f.width : Int)), s)) ∧
    (¬ ((f.width : Int) > (c.maxPosition : Int) - (s.position : Int)) →
      (f.width : Int) > (s.maxPosition : Int) - (s.position : Int) →
      Chunk.applyFixed c s f = (.error (.boundary s.position s.maxPosition (f.width : Int)), s)) ∧
    (0 < n → n > (s.maxPosition : Int) - (s.position : Int) →
      s.skip n = (.error (.boundary s.position s.maxPosition n), s)) ∧
    (0 < n → n > (c.maxPosition : Int) - (s.position : Int) →
      Chunk.skip c s (some n) = (.error (.boundary s.position c.maxPosition n), s)) ∧
    ((zs88591Aux s.buffer c.maxPosition (c.maxPosition - s.position) s.position []).1 = false →
      Chunk.readZString88591 c s false =
        (.error (.message "Short read (chunk end boundary reached) when reading ISO-8859-1 string"),
          { s with position :=
              (zs88591Aux s.buffer c.maxPosition (c.maxPosition - s.position) s.position []).2.2 })) ∧
    ((zsUTF8Aux s.buffer c.maxPosition (c.maxPosition - s.position) s.position).1 = false →
      Chunk.readZStringUTF8 c s false =
        (.error (.message "Short read (chunk end boundary reached) when reading UTF-8 string"),
          { s with position :=
              (zsUTF8Aux s.buffer c.maxPosition (c.maxPosition - s.position) s.position).2 })) ∧
    ((zsUTF16Aux c.maxPosition (c.maxPosition - s.position) s.buffer s.position s.position
        false).isExhausted = true →
      Chunk.readZStringUTF16 c s false =
        (.error (.message "Short read (chunk end boundary reached) when reading UTF-16 string"),
          { s with
            buffer := (zsUTF16Aux c.maxPosition (c.maxPosition - s.position) s.buffer s.position
              s.position false).outBuf,
            position := (zsUTF16Aux c.maxPosition (c.maxPosition - s.position) s.buffer s.position
              s.position false).outPos })) ∧
    (s.position ≤ c.maxPosition →
      (zs88591Aux s.buffer c.maxPosition (c.maxPosition - s.position) s.position []).1 = false →
      (zs88591Aux s.buffer c.maxPosition (c.maxPosition - s.position) s.position []).2.2 =
        c.maxPosition) ∧
    (s.position ≤ c.maxPosition →
      (zsUTF8Aux s.buffer c.maxPosition (c.maxPosition - s.position) s.position).1 = false →
      (zsUTF8Aux s.buffer c.maxPosition (c.maxPosition - s.position) s.position).2 =
        c.maxPosition) ∧
    ((zsUTF16Aux c.maxPosition (c.maxPosition - s.position) s.buffer s.position s.position
        false).isExhausted = true →
      c.maxPosition ≤ (zsUTF16Aux c.maxPosition (c.maxPosition - s.position) s.buffer s.position
        s.position false).outPos + 1) := by
  refine ⟨?_, ?_, ?_, ?_, ?_, ?_, ?_, ?_, ?_, ?_, ?_⟩
  · intro hg
    rw [streamApplyFixed_eq, if_pos hg]
  · intro hg
    rw [chunkApplyFixed_eq, if_pos hg]
  · intro hg1 hg2
    rw [chunkApplyFixed_eq, if_neg hg1, streamApplyFixed_eq, if_pos hg2]
  · intro h1 h2
    rw [PullStream.skip_eq, if_neg (by omega), if_pos h2]
  · intro h1 h2
    unfold Chunk.skip Chunk.ensureCapacity
    dsimp only
    rw [if_neg (by omega), if_pos h2]
  · intro hnf
    unfold Chunk.readZString88591
    dsimp only
    rw [if_neg (by simp [hnf]), if_neg (by simp)]
  · intro hnf
    unfold Chunk.readZStringUTF8
    dsimp only
    rw [if_neg (by simp [hnf]), if_neg (by simp)]
  · intro hex
    unfold Chunk.readZStringUTF16
    rcases hz : zsUTF16Aux c.maxPosition (c.maxPosition - s.position) s.buffer s.position
        s.position false with ⟨str, b, p⟩ | ⟨fr, be, b, p⟩
    · exact absurd (hz ▸ hex) (by simp [ZU16Out.isExhausted])
    · simp [ZU16Out.outBuf, ZU16Out.outPos]
  · intro hp hnf
    exact zs88591Aux_exhaust_pos s.buffer c.maxPosition (c.maxPosition - s.position) s.position []
      (by omega) hp hnf
  · intro hp hnf
    exact zsUTF8Aux_exhaust_pos s.buffer c.maxPosition (c.maxPosition - s.position) s.position
      (by omega) hp hnf
  · intro hex
    exact zsUTF16Aux_exhaust_pos c.maxPosition (c.maxPosition - s.position) s.buffer s.position
      s.position false (by omega) hex

/-- C4 witness: concrete instantiation of the amended error contract on a
2-byte cursor, a window of upperBound 1 (odd width, so the UTF-16 scan stops
with one byte remaining) and a skip length of 4. -/
theorem claim4_boundary_error_amended_witness :
    ((4 : Int) > (2 : Nat) - ((0 : Nat) : Int) →
      (PullStream.fromBuffer [7, 9]).applyFixed FixedOp.rLong =
        (.error (.boundary 0 2 4), PullStream.fromBuffer [7, 9])) ∧
    ((4 : Int) > (1 : Nat) - ((0 : Nat) : Int) →
      Chunk.applyFixed { maxPosition := 1 } (PullStream.fromBuffer [7, 9]) FixedOp.rLong =
        (.error (.boundary 0 1 4), PullStream.fromBuffer [7, 9])) ∧
    (¬ ((4 : Int) > (1 : Nat) - ((0 : Nat) : Int)) →
      (4 : Int) > (2 : Nat) - ((0 : Nat) : Int) →
      Chunk.applyFixed { maxPosition := 1 } (PullStream.fromBuffer [7, 9]) FixedOp.rLong =
        (.error (.boundary 0 2 4), PullStream.fromBuffer [7, 9])) ∧
    ((0 : Int) < 4 → (4 : Int) > (2 : Nat) - ((0 : Nat) : Int) →
      (PullStream.fromBuffer [7, 9]).skip 4 =
        (.error (.boundary 0 2 4), PullStream.fromBuffer [7, 9])) ∧
    ((0 : Int) < 4 → (4 : Int) > (1 : Nat) - ((0 : Nat) : Int) →
      Chunk.skip { maxPosition := 1 } (PullStream.fromBuffer [7, 9]) (some 4) =
        (.error (.boundary 0 1 4), PullStream.fromBuffer [7, 9])) ∧
    ((zs88591Aux [7, 9] 1 1 0 []).1 = false →
      Chunk.readZString88591 { maxPosition := 1 } (PullStream.fromBuffer [7, 9]) false =
        (.error (.message "Short read (chunk end boundary reached) when reading ISO-8859-1 string"),
          { buffer := [7, 9], position := (zs88591Aux [7, 9] 1 1 0 []).2.2, maxPosition := 2 })) ∧
    ((zsUTF8Aux [7, 9] 1 1 0).1 = false →
      Chunk.readZStringUTF8 { maxPosition := 1 } (PullStream.fromBuffer [7, 9]) false =
        (.error (.message "Short read (chunk end boundary reached) when reading UTF-8 string"),
          { buffer := [7, 9], position := (zsUTF8Aux [7, 9] 1 1 0).2, maxPosition := 2 })) ∧
    ((zsUTF16Aux 1 1 [7, 9] 0 0 false).isExhausted = true →
      Chunk.readZStringUTF16 { maxPosition := 1 } (PullStream.fromBuffer [7, 9]) false =
        (.error (.message "Short read (chunk end boundary reached) when reading UTF-16 string"),
          { buffer := (zsUTF16Aux 1 1 [7, 9] 0 0 false).outBuf,
            position := (zsUTF16Aux 1 1 [7, 9] 0 0 false).outPos, maxPosition := 2 })) ∧
    ((0 : Nat) ≤ 1 → (zs88591Aux [7, 9] 1 1 0 []).1 = false →
      (zs88591Aux [7, 9] 1 1 0 []).2.2 = 1) ∧
    ((0 : Nat) ≤ 1 → (zsUTF8Aux [7, 9] 1 1 0).1 = false →
      (zsUTF8Aux [7, 9] 1 1 0).2 = 1) ∧
    ((zsUTF16Aux 1 1 [7, 9] 0 0 false).isExhausted = true →
      1 ≤ (zsUTF16Aux 1 1 [7, 9] 0 0 false).outPos + 1) :=
  claim4_boundary_error_amended (PullStream.fromBuffer [7, 9]) { maxPosition := 1 } FixedOp.rLong 4

/-- C4 counterexample: readZString88591 on an unterminated window raises an
error that carries only a message (no position, bound or byte-count fields)
and leaves the shared position advanced from 0 to 1, refuting the claim that
every short-read error carries those fields and leaves the position
unchanged. -/
theorem claim4_counterexample :
    Chunk.readZString88591 { maxPosition := 1 } (PullStream.fromBuffer [65]) false =
      (.error (.message "Short read (chunk end boundary reached) when reading ISO-8859-1 string"),
        { buffer := [65], position := 1, maxPosition := 1 }) := by
  rfl

/-- C9: a fixed-width read through a Chunk is capacity-checked both against
the chunk's upperBound and, by the delegated stream operation, against the
cursor's length; if the requested bytes do not fit in the buffer the
operation returns a short-read error with the state unchanged (never reading
out of bounds), and if it returns ok the whole access was inside the buffer
and the position advanced by exactly the operation's width. -/
theorem claim9_double_capacity_check (c : Chunk) (s : PullStream) (f : FixedOp)
    (hwf : s.maxPosition = s.buffer.length) :
    (s.buffer.length < s.position + f.width →
      Chunk.applyFixed c s f =
        (.error (.boundary s.position
            (if (f.width : Int) > (c.maxPosition : Int) - (s.position : Int) then c.maxPosition
              else s.maxPosition)
            (f.width : Int)), s)) ∧
    ((Chunk.applyFixed c s f).1 = .ok () →
      s.position + f.width ≤ s.buffer.length ∧
      Chunk.applyFixed c s f = (.ok (), { s with position := s.position + f.width })) := by
  constructor
  · intro hover
    rw [chunkApplyFixed_eq]
    split_ifs with hg
    · rfl
    · rw [streamApplyFixed_eq, if_pos (by omega)]
  · intro hok
    rw [chunkApplyFixed_eq] at hok ⊢
    by_cases hg : (f.width : Int) > (c.maxPosition : Int) - (s.position : Int)
    · rw [if_pos hg] at hok
      exact absurd hok (by simp)
    · rw [if_neg hg] at hok ⊢
      rw [streamApplyFixed_eq] at hok ⊢
      by_cases hg2 : (f.width : Int) > (s.maxPosition : Int) - (s.position : Int)
      · rw [if_pos hg2] at hok
        exact absurd hok (by simp)
      · rw [if_neg hg2]
        exact ⟨by omega, rfl⟩

/-- C9 witness: a chunk with upperBound 10 over a 2-byte cursor; readLong
fails with the stream's boundary error and the state unchanged. -/
theorem claim9_double_capacity_check_witness :
    ((PullStream.fromBuffer [7, 9]).buffer.length < 0 + FixedOp.rLong.width →
      Chunk.applyFixed { maxPosition := 10 } (PullStream.fromBuffer [7, 9]) FixedOp.rLong =
        (.error (.boundary 0
            (if (4 : Int) > (10 : Nat) - ((0 : Nat) : Int) then 10 else 2) 4),
          PullStream.fromBuffer [7, 9])) ∧
    ((Chunk.applyFixed { maxPosition := 10 } (PullStream.fromBuffer [7, 9]) FixedOp.rLong).1 = .ok () →
      0 + FixedOp.rLong.width ≤ 2 ∧
      Chunk.applyFixed { maxPosition := 10 } (PullStream.fromBuffer [7, 9]) FixedOp.rLong =
        (.ok (), { buffer := [7, 9], position := 0 + 4, maxPosition := 2 })) :=
  claim9_double_capacity_check { maxPosition := 10 } (PullStream.fromBuffer [7, 9]) FixedOp.rLong rfl

/-- C5: readZStringUTF16 decodes a double-zero-terminated UTF-16 sequence
with BOM detection: the window [0xFE,0xFF, 0x00,0x41, 0x00,0x00] (big-endian
BOM, then 'A', then the terminator) decodes to "A"; the window
[0xFF,0xFE, 0x41,0x00, 0x00,0x00] (little-endian BOM) also decodes to "A";
in both cases the BOM and the terminator are consumed (the shared position
ends at 6) and excluded from the result; and a window with no terminator
under allowShortRead = true returns the partial decode of the remaining
window ("AB") instead of failing. -/
theorem claim5_utf16_bom_variants :
    (Chunk.readZStringUTF16
        (PullStream.mkChunk (PullStream.fromBuffer [254, 255, 0, 65, 0, 0]) none)
        (PullStream.fromBuffer [254, 255, 0, 65, 0, 0]) false).1 = .ok "A" ∧
    (Chunk.readZStringUTF16
        (PullStream.mkChunk (PullStream.fromBuffer [254, 255, 0, 65, 0, 0]) none)
        (PullStream.fromBuffer [254, 255, 0, 65, 0, 0]) false).2.position = 6 ∧
    (Chunk.readZStringUTF16
        (PullStream.mkChunk (PullStream.fromBuffer [255, 254, 65, 0, 0, 0]) none)
        (PullStream.fromBuffer [255, 254, 65, 0, 0, 0]) false).1 = .ok "A" ∧
    (Chunk.readZStringUTF16
        (PullStream.mkChunk (PullStream.fromBuffer [255, 254, 65, 0, 0, 0]) none)
        (PullStream.fromBuffer [255, 254, 65, 0, 0, 0]) false).2.position = 6 ∧
    (Chunk.readZStringUTF16
        (PullStream.mkChunk (PullStream.fromBuffer [255, 254, 65, 0, 66, 0]) none)
        (PullStream.fromBuffer [255, 254, 65, 0, 66, 0]) true).1 = .ok "AB" ∧
    (Chunk.readZStringUTF16
        (PullStream.mkChunk (PullStream.fromBuffer [255, 254, 65, 0, 66, 0]) none)
        (PullStream.fromBuffer [255, 254, 65, 0, 66, 0]) true).2.position = 6 :=
  ⟨rfl, rfl, rfl, rfl, rfl, rfl⟩

theorem shl8_fold (b1 b2 b3 b4 : Int)
    (h1 : 0 ≤ b1 ∧ b1 < 256) (h2 : 0 ≤ b2 ∧ b2 < 256)
    (h3 : 0 ≤ b3 ∧ b3 < 256) (h4 : 0 ≤ b4 ∧ b4 < 256) :
    shl8 (shl8 (shl8 b1 + b2) + b3) + b4 =
      toInt32 (((b1 * 256 + b2) * 256 + b3) * 256 + b4) := by
  have i1 : toInt32 b1 = b1 := toInt32_of_lt (by omega) (by omega)
  have i2 : toInt32 (b1 * 256) = b1 * 256 := toInt32_of_lt (by omega) (by omega)
  have i3 : toInt32 (b1 * 256 + b2) = b1 * 256 + b2 := toInt32_of_lt (by omega) (by omega)
  have i4 : toInt32 ((b1 * 256 + b2) * 256) = (b1 * 256 + b2) * 256 :=
    toInt32_of_lt (by omega) (by omega)
  have i5 : toInt32 ((b1 * 256 + b2) * 256 + b3) = (b1 * 256 + b2) * 256 + b3 :=
    toInt32_of_lt (by omega) (by omega)
  have e0 : shl8 b1 = b1 * 256 := by
    unfold shl8
    rw [i1, i2]
  have e1 : shl8 (b1 * 256 + b2) = (b1 * 256 + b2) * 256 := by
    unfold shl8
    rw [i3, i4]
  have e2 : shl8 ((b1 * 256 + b2) * 256 + b3) =
      toInt32 (((b1 * 256 + b2) * 256 + b3) * 256) := by
    unfold shl8
    rw [i5]
  rw [e0, e1, e2]
  exact toInt32_add_byte (by omega) (by omega) (by omega) (by omega) (by omega)

theorem readLong_eq_of_bytes (b1 b2 b3 b4 : Nat) (rest : List Nat) :
    (PullStream.fromBuffer (b1 :: b2 :: b3 :: b4 :: rest)).readLong =
      (.ok (shl8 (shl8 (shl8 (b1 : Int) + b2) + b3) + b4),
        { buffer := b1 :: b2 :: b3 :: b4 :: rest, position := 4,
          maxPosition := (b1 :: b2 :: b3 :: b4 :: rest).length }) := by
  unfold PullStream.readLong PullStream.ensureCapacity PullStream.fromBuffer
  rw [if_neg (by simp only [List.length_cons]; push_cast; omega)]
  simp [List.getD]

theorem readShort_eq_of_bytes (b1 b2 b3 b4 : Nat) (rest : List Nat) :
    (PullStream.fromBuffer (b1 :: b2 :: b3 :: b4 :: rest)).readShort =
      (.ok (b1 * 256 + b2),
        { buffer := b1 :: b2 :: b3 :: b4 :: rest, position := 2,
          maxPosition := (b1 :: b2 :: b3 :: b4 :: rest).length }) := by
  unfold PullStream.readShort PullStream.ensureCapacity PullStream.fromBuffer
  rw [if_neg (by simp only [List.length_cons]; push_cast; omega)]
  simp [List.getD]

theorem read3Bytes_eq_of_bytes (b1 b2 b3 b4 : Nat) (rest : List Nat) :
    (PullStream.fromBuffer (b1 :: b2 :: b3 :: b4 :: rest)).read3Bytes =
      (.ok ((b1 * 256 + b2) * 256 + b3),
        { buffer := b1 :: b2 :: b3 :: b4 :: rest, position := 3,
          maxPosition := (b1 :: b2 :: b3 :: b4 :: rest).length }) := by
  unfold PullStream.read3Bytes PullStream.ensureCapacity PullStream.fromBuffer
  rw [if_neg (by simp only [List.length_cons]; push_cast; omega)]
  simp [List.getD]

/-- C7 (amended): readLong on a buffer starting with bytes b1 b2 b3 b4
returns the big-endian fold interpreted as a SIGNED 32-bit integer (toInt32
of sum = sum*256 + nextByte), advancing the position by 4; the value equals
the plain fold exactly when b1 < 0x80 (the final JavaScript shift wraps
otherwise); readShort and read3Bytes return the plain fold (their values
cannot reach 2^31) and advance by 2 and 3 respectively. -/
theorem claim7_fold_laws (b1 b2 b3 b4 : Nat) (rest : List Nat)
    (h1 : b1 < 256) (h2 : b2 < 256) (h3 : b3 < 256) (h4 : b4 < 256) :
    (PullStream.fromBuffer (b1 :: b2 :: b3 :: b4 :: rest)).readLong =
      (.ok (toInt32 ((((b1 : Int) * 256 + b2) * 256 + b3) * 256 + b4)),
        { buffer := b1 :: b2 :: b3 :: b4 :: rest, position := 4,
          maxPosition := (b1 :: b2 :: b3 :: b4 :: rest).length }) ∧
    (b1 < 128 →
      (PullStream.fromBuffer (b1 :: b2 :: b3 :: b4 :: rest)).readLong =
        (.ok ((((b1 : Int) * 256 + b2) * 256 + b3) * 256 + b4),
          { buffer := b1 :: b2 :: b3 :: b4 :: rest, position := 4,
            maxPosition := (b1 :: b2 :: b3 :: b4 :: rest).length })) ∧
    (PullStream.fromBuffer (b1 :: b2 :: b3 :: b4 :: rest)).readShort =
      (.ok (b1 * 256 + b2),
        { buffer := b1 :: b2 :: b3 :: b4 :: rest, position := 2,
          maxPosition := (b1 :: b2 :: b3 :: b4 :: rest).length }) ∧
    (PullStream.fromBuffer (b1 :: b2 :: b3 :: b4 :: rest)).read3Bytes =
      (.ok ((b1 * 256 + b2) * 256 + b3),
        { buffer := b1 :: b2 :: b3 :: b4 :: rest, position := 3,
          maxPosition := (b1 :: b2 :: b3 :: b4 :: rest).length }) := by
  have hfold := shl8_fold (b1 : Int) b2 b3 b4 (by omega) (by omega) (by omega) (by omega)
  refine ⟨?_, ?_, readShort_eq_of_bytes b1 b2 b3 b4 rest, read3Bytes_eq_of_bytes b1 b2 b3 b4 rest⟩
  · rw [readLong_eq_of_bytes, hfold]
  · intro hsmall
    rw [readLong_eq_of_bytes, hfold,
      toInt32_of_lt (by omega) (by push_cast; omega)]

/-- C7 witness: reading 0x01 0x02 0x03 0x04 yields 0x01020304 and advances by
4; the short and 3-byte reads yield 0x0102 and 0x010203. -/
theorem claim7_fold_laws_witness :
    (PullStream.fromBuffer [1, 2, 3, 4]).readLong =
      (.ok (toInt32 ((((1 : Int) * 256 + 2) * 256 + 3) * 256 + 4)),
        { buffer := [1, 2, 3, 4], position := 4, maxPosition := 4 }) ∧
    ((1 : Nat) < 128 →
      (PullStream.fromBuffer [1, 2, 3, 4]).readLong =
        (.ok ((((1 : Int) * 256 + 2) * 256 + 3) * 256 + 4),
          { buffer := [1, 2, 3, 4], position := 4, maxPosition := 4 })) ∧
    (PullStream.fromBuffer [1, 2, 3, 4]).readShort =
      (.ok (1 * 256 + 2), { buffer := [1, 2, 3, 4], position := 2, maxPosition := 4 }) ∧
    (PullStream.fromBuffer [1, 2, 3, 4]).read3Bytes =
      (.ok ((1 * 256 + 2) * 256 + 3), { buffer := [1, 2, 3, 4], position := 3, maxPosition := 4 }) :=
  claim7_fold_laws 1 2 3 4 [] (by decide) (by decide) (by decide) (by decide)

/-- C7 counterexample: on the buffer FF FF FF FF the claimed value of
readLong is the fold 4294967295, but the source's final 32-bit shift wraps
and readLong returns -1. -/
theorem claim7_counterexample :
    ((PullStream.fromBuffer [255, 255, 255, 255]).readLong).1 ≠
      .ok (((((255 : Int) * 256 + 255) * 256 + 255) * 256 + 255)) ∧
    ((PullStream.fromBuffer [255, 255, 255, 255]).readLong).1 = .ok (-1) := by
  constructor
  · decide
  · decide

theorem extract_nil_of_ge (buf : List Nat) (a b : Nat) (h : b ≤ a) :
    extract buf a b = [] := by
  unfold extract
  exact List.drop_eq_nil_of_le (by simp only [List.length_take]; omega)

theorem extract_cons (buf : List Nat) (a b : Nat) (h1 : a < b) (h2 : b ≤ buf.length) :
    extract buf a b = buf.getD a 0 :: extract buf (a + 1) b := by
  unfold extract
  have hlen : a < (buf.take b).length := by simp only [List.length_take]; omega
  rw [List.drop_eq_getElem_cons hlen]
  congr 1
  rw [List.getElem_take, List.getD_eq_getElem buf 0 (by omega)]

theorem s88591Aux_spec (buf : List Nat) (maxPos : Nat) (hlen : maxPos ≤ buf.length) :
    ∀ fuel pos acc, maxPos ≤ pos + fuel → pos ≤ maxPos →
      s88591Aux buf maxPos fuel pos acc =
        (acc ++ (extract buf pos maxPos).map (fun b => Char.ofNat b), maxPos) := by
  intro fuel
  induction fuel with
  | zero =>
    intro pos acc hf hp
    have hpm : pos = maxPos := by omega
    subst hpm
    simp [s88591Aux, extract_nil_of_ge buf pos pos le_rfl]
  | succ k ih =>
    intro pos acc hf hp
    by_cases h : pos < maxPos
    · simp only [s88591Aux, if_pos h]
      rw [ih (pos + 1) _ (by omega) (by omega)]
      rw [extract_cons buf pos maxPos h hlen]
      simp
    · have hpm : pos = maxPos := by omega
      subst hpm
      simp [s88591Aux, if_neg h, extract_nil_of_ge buf pos pos le_rfl]

/-- C8: among the Window whole-window operations, readBuffer returns the byte
range from the shared position to upperBound without advancing the shared
position; readStringUTF8 and readStringUTF16 decode the same range without
advancing; readString88591 decodes that range byte-by-byte (one byte per code
point) and advances the shared position to upperBound. -/
theorem claim8_whole_window_ops (c : Chunk) (s : PullStream)
    (h1 : s.position ≤ c.maxPosition) (h2 : c.maxPosition ≤ s.buffer.length) :
    Chunk.readBuffer c s = (extract s.buffer s.position c.maxPosition, s) ∧
    Chunk.readStringUTF8 c s = (utf8Str (extract s.buffer s.position c.maxPosition), s) ∧
    Chunk.readStringUTF16 c s = (ucs2Str (extract s.buffer s.position c.maxPosition), s) ∧
    Chunk.readString88591 c s =
      (String.mk ((extract s.buffer s.position c.maxPosition).map (fun b => Char.ofNat b)),
        { s with position := c.maxPosition }) := by
  refine ⟨rfl, rfl, rfl, ?_⟩
  unfold Chunk.readString88591
  rw [s88591Aux_spec s.buffer c.maxPosition h2 (c.maxPosition - s.position) s.position []
    (by omega) h1]
  simp

/-- C8 witness: on the 3-byte cursor "Hi!" with a window over the whole
buffer, readBuffer returns the bytes, the decoders return "Hi!", and only
readString88591 advances the position (to 3). -/
theorem claim8_whole_window_ops_witness :
    Chunk.readBuffer { maxPosition := 3 } (PullStream.fromBuffer [72, 105, 33]) =
      (extract [72, 105, 33] 0 3, PullStream.fromBuffer [72, 105, 33]) ∧
    Chunk.readStringUTF8 { maxPosition := 3 } (PullStream.fromBuffer [72, 105, 33]) =
      (utf8Str (extract [72, 105, 33] 0 3), PullStream.fromBuffer [72, 105, 33]) ∧
    Chunk.readStringUTF16 { maxPosition := 3 } (PullStream.fromBuffer [72, 105, 33]) =
      (ucs2Str (extract [72, 105, 33] 0 3), PullStream.fromBuffer [72, 105, 33]) ∧
    Chunk.readString88591 { maxPosition := 3 } (PullStream.fromBuffer [72, 105, 33]) =
      (String.mk ((extract [72, 105, 33] 0 3).map (fun b => Char.ofNat b)),
        { buffer := [72, 105, 33], position := 3, maxPosition := 3 }) :=
  claim8_whole_window_ops { maxPosition := 3 } (PullStream.fromBuffer [72, 105, 33])
    (by decide) (by decide)

theorem getD_lt_of_forall {buf : List Nat} (hB : ∀ b ∈ buf, b < 256) (i : Nat) :
    buf.getD i 0 < 256 := by
  by_cases h : i < buf.length
  · rw [List.getD_eq_getElem buf 0 h]
    exact hB _ (List.getElem_mem h)
  · rw [List.getD_eq_default buf 0 (by omega)]
    decide

theorem pad3_forall {buf : List Nat} (hB : ∀ b ∈ buf, b < 256) :
    ∀ b ∈ pad3 buf, b < 256 := by
  intro b hb
  simp only [pad3, List.mem_cons] at hb
  rcases hb with rfl | rfl | rfl | hb
  · decide
  · decide
  · decide
  · exact hB b hb

theorem pad3_getD (buf : List Nat) (k : Nat) :
    (pad3 buf).getD (k + 3) 0 = buf.getD k 0 := by
  show (0 :: 0 :: 0 :: buf).getD (k + 3) 0 = buf.getD k 0
  rw [show k + 3 = (k + 2) + 1 from rfl, List.getD_cons_succ,
    show k + 2 = (k + 1) + 1 from rfl, List.getD_cons_succ, List.getD_cons_succ]

theorem win3_zero (buf : List Nat) : win3 buf 0 = 0 := by
  have e : win3 buf 0 = (0 * 256 + 0) * 256 + 0 := rfl
  omega

theorem win3_eq_beVal3 (buf : List Nat) (k : Nat) : win3 buf (k + 3) = beVal3 buf k := by
  unfold win3 beVal3
  rw [show k + 3 + 1 = (k + 1) + 3 from by omega, show k + 3 + 2 = (k + 2) + 3 from by omega]
  rw [pad3_getD, pad3_getD, pad3_getD]

theorem win3_one_lt {buf : List Nat} (hB : ∀ b ∈ buf, b < 256) : win3 buf 1 < 65536 := by
  have h0 := getD_lt_of_forall hB 0
  have e : win3 buf 1 = (0 * 256 + 0) * 256 + buf.getD 0 0 := rfl
  omega

theorem win3_two_lt {buf : List Nat} (hB : ∀ b ∈ buf, b < 256) : win3 buf 2 < 65536 := by
  have h0 := getD_lt_of_forall hB 0
  have h1 := getD_lt_of_forall hB 1
  have e : win3 buf 2 = (0 * 256 + buf.getD 0 0) * 256 + buf.getD 1 0 := rfl
  omega

theorem win3_step {buf : List Nat} (hB : ∀ b ∈ buf, b < 256) (pos : Nat) :
    (win3 buf pos % 65536) * 256 + buf.getD pos 0 = win3 buf (pos + 1) := by
  have hB1 := getD_lt_of_forall (pad3_forall hB) (pos + 1)
  have hB2 := getD_lt_of_forall (pad3_forall hB) (pos + 2)
  have e : buf.getD pos 0 = (pad3 buf).getD (pos + 3) 0 := (pad3_getD buf pos).symm
  unfold win3
  rw [show pos + 1 + 1 = pos + 2 from by omega, show pos + 1 + 2 = pos + 3 from by omega, e]
  omega

theorem scan3Aux_none {buf : List Nat} {x : Nat} (hB : ∀ b ∈ buf, b < 256) :
    ∀ fuel pos, buf.length ≤ pos + fuel → pos ≤ buf.length →
      (∀ j, pos < j → j ≤ buf.length → win3 buf j ≠ x) →
      scan3BytesAux buf buf.length x fuel pos (win3 buf pos) = (false, buf.length) := by
  intro fuel
  induction fuel with
  | zero =>
    intro pos hf hp _
    have hpm : pos = buf.length := by omega
    simp [scan3BytesAux, hpm]
  | succ k ih =>
    intro pos hf hp hno
    by_cases h : pos < buf.length
    · simp only [scan3BytesAux, if_pos h]
      rw [win3_step hB pos]
      rw [if_neg (hno (pos + 1) (by omega) (by omega))]
      exact ih (pos + 1) (by omega) (by omega) (fun j h1 h2 => hno j (by omega) h2)
    · have hpm : pos = buf.length := by omega
      simp [scan3BytesAux, if_neg h, hpm]

theorem scan3Aux_find {buf : List Nat} {x : Nat} (hB : ∀ b ∈ buf, b < 256) :
    ∀ fuel pos j, buf.length ≤ pos + fuel → pos < j → j ≤ buf.length → win3 buf j = x →
      (∀ i, pos < i → i < j → win3 buf i ≠ x) →
      scan3BytesAux buf buf.length x fuel pos (win3 buf pos) = (true, j) := by
  intro fuel
  induction fuel with
  | zero =>
    intro pos j hf h1 h2 h3 h4
    exact absurd rfl (by omega : ¬ (0 = 0))
  | succ k ih =>
    intro pos j hf h1 h2 h3 h4
    have h : pos < buf.length := by omega
    simp only [scan3BytesAux, if_pos h]
    rw [win3_step hB pos]
    by_cases hj : pos + 1 = j
    · rw [if_pos (by rw [hj]; exact h3)]
      rw [hj]
    · rw [if_neg (by rw [show pos + 1 = pos + 1 from rfl]; exact h4 (pos + 1) (by omega) (by omega))]
      exact ih (pos + 1) j (by omega) (by omega) h2 h3 (fun i hi1 hi2 => h4 i (by omega) hi2)

/-- For a first-byte-nonzero pattern, any rolling-register match corresponds
to a real occurrence. -/
theorem win3_match_of_no_occurrence {buf : List Nat} {x : Nat}
    (hB : ∀ b ∈ buf, b < 256) (hx : 65536 ≤ x)
    (hno : ∀ k, k < buf.length → ¬ occurs3At buf x k) :
    ∀ j, 0 < j → j ≤ buf.length → win3 buf j ≠ x := by
  intro j h1 h2
  rcases Nat.lt_or_ge j 3 with hlt | hge
  · interval_cases j
    · have := win3_one_lt hB
      omega
    · have := win3_two_lt hB
      omega
  · obtain ⟨m, rfl⟩ : ∃ m, j = m + 3 := ⟨j - 3, by omega⟩
    rw [win3_eq_beVal3]
    intro hc
    exact hno m (by omega) ⟨by omega, hc⟩

theorem scan3Bytes_not_found {buf : List Nat} {x : Nat}
    (hB : ∀ b ∈ buf, b < 256) (hx : 65536 ≤ x)
    (hno : ∀ k, k < buf.length → ¬ occurs3At buf x k) :
    (PullStream.fromBuffer buf).scan3Bytes x =
      (false, { buffer := buf, position := buf.length, maxPosition := buf.length }) := by
  have haux := scan3Aux_none hB buf.length 0 (by omega) (by omega)
    (win3_match_of_no_occurrence hB hx hno)
  rw [win3_zero] at haux
  unfold PullStream.scan3Bytes PullStream.fromBuffer
  dsimp only
  rw [Nat.sub_zero, haux]

theorem scan3Bytes_finds {buf : List Nat} {x k : Nat}
    (hB : ∀ b ∈ buf, b < 256) (hx : 65536 ≤ x)
    (hocc : occurs3At buf x k) (hmin : ∀ j, j < k → ¬ occurs3At buf x j) :
    (PullStream.fromBuffer buf).scan3Bytes x =
      (true, { buffer := buf, position := k + 3, maxPosition := buf.length }) := by
  obtain ⟨hk, hval⟩ := hocc
  have hminwin : ∀ i, 0 < i → i < k + 3 → win3 buf i ≠ x := by
    intro i h1 h2
    rcases Nat.lt_or_ge i 3 with hlt | hge
    · interval_cases i
      · have := win3_one_lt hB
        omega
      · have := win3_two_lt hB
        omega
    · obtain ⟨m, rfl⟩ : ∃ m, i = m + 3 := ⟨i - 3, by omega⟩
      rw [win3_eq_beVal3]
      intro hc
      exact hmin m (by omega) ⟨by omega, hc⟩
  have haux := scan3Aux_find hB buf.length 0 (k + 3) (by omega) (by omega) (by omega)
    (by rw [win3_eq_beVal3]; exact hval) hminwin
  rw [win3_zero] at haux
  unfold PullStream.scan3Bytes PullStream.fromBuffer
  dsimp only
  rw [Nat.sub_zero, haux]

theorem pad4_forall {buf : List Nat} (hB : ∀ b ∈ buf, b < 256) :
    ∀ b ∈ pad4 buf, b < 256 := by
  intro b hb
  simp only [pad4, List.mem_cons] at hb
  rcases hb with rfl | rfl | rfl | rfl | hb
  · decide
  · decide
  · decide
  · decide
  · exact hB b hb

theorem pad4_getD (buf : List Nat) (k : Nat) :
    (pad4 buf).getD (k + 4) 0 = buf.getD k 0 := by
  show (0 :: 0 :: 0 :: 0 :: buf).getD (k + 4) 0 = buf.getD k 0
  rw [show k + 4 = (k + 3) + 1 from rfl, List.getD_cons_succ,
    show k + 3 = (k + 2) + 1 from rfl, List.getD_cons_succ,
    show k + 2 = (k + 1) + 1 from rfl, List.getD_cons_succ, List.getD_cons_succ]

theorem win4_zero (buf : List Nat) : win4 buf 0 = 0 := by
  have e : win4 buf 0 = ((0 * 256 + 0) * 256 + 0) * 256 + 0 := rfl
  omega

theorem win4_eq_beVal4 (buf : List Nat) (k : Nat) : win4 buf (k + 4) = beVal4 buf k := by
  unfold win4 beVal4
  rw [show k + 4 + 1 = (k + 1) + 4 from by omega, show k + 4 + 2 = (k + 2) + 4 from by omega,
    show k + 4 + 3 = (k + 3) + 4 from by omega]
  rw [pad4_getD, pad4_getD, pad4_getD, pad4_getD]

theorem win4_lt {buf : List Nat} (hB : ∀ b ∈ buf, b < 256) (j : Nat) :
    win4 buf j < 4294967296 := by
  have h0 := getD_lt_of_forall (pad4_forall hB) j
  have h1 := getD_lt_of_forall (pad4_forall hB) (j + 1)
  have h2 := getD_lt_of_forall (pad4_forall hB) (j + 2)
  have h3 := getD_lt_of_forall (pad4_forall hB) (j + 3)
  unfold win4
  omega

theorem beVal4_lt {buf : List Nat} (hB : ∀ b ∈ buf, b < 256) (k : Nat) :
    beVal4 buf k < 4294967296 := by
  have h0 := getD_lt_of_forall hB k
  have h1 := getD_lt_of_forall hB (k + 1)
  have h2 := getD_lt_of_forall hB (k + 2)
  have h3 := getD_lt_of_forall hB (k + 3)
  unfold beVal4
  omega

theorem win4_one_lt {buf : List Nat} (hB : ∀ b ∈ buf, b < 256) : win4 buf 1 < 16777216 := by
  have h0 := getD_lt_of_forall hB 0
  have e : win4 buf 1 = ((0 * 256 + 0) * 256 + 0) * 256 + buf.getD 0 0 := rfl
  omega

theorem win4_two_lt {buf : List Nat} (hB : ∀ b ∈ buf, b < 256) : win4 buf 2 < 16777216 := by
  have h0 := getD_lt_of_forall hB 0
  have h1 := getD_lt_of_forall hB 1
  have e : win4 buf 2 = ((0 * 256 + 0) * 256 + buf.getD 0 0) * 256 + buf.getD 1 0 := rfl
  omega

theorem win4_three_lt {buf : List Nat} (hB : ∀ b ∈ buf, b < 256) : win4 buf 3 < 16777216 := by
  have h0 := getD_lt_of_forall hB 0
  have h1 := getD_lt_of_forall hB 1
  have h2 := getD_lt_of_forall hB 2
  have e : win4 buf 3 = ((0 * 256 + buf.getD 0 0) * 256 + buf.getD 1 0) * 256 + buf.getD 2 0 := rfl
  omega

theorem win4_step {buf : List Nat} (hB : ∀ b ∈ buf, b < 256) (pos : Nat) :
    toInt32 ((toInt32 (win4 buf pos : Int) % 16777216) * 256) + (buf.getD pos 0 : Int) =
      toInt32 (win4 buf (pos + 1) : Int) := by
  have hA := getD_lt_of_forall (pad4_forall hB) pos
  have hB1 := getD_lt_of_forall (pad4_forall hB) (pos + 1)
  have hC := getD_lt_of_forall (pad4_forall hB) (pos + 2)
  have hD := getD_lt_of_forall (pad4_forall hB) (pos + 3)
  have hE := getD_lt_of_forall (pad4_forall hB) (pos + 4)
  have e : buf.getD pos 0 = (pad4 buf).getD (pos + 4) 0 := (pad4_getD buf pos).symm
  unfold win4
  rw [show pos + 1 + 1 = pos + 2 from by omega, show pos + 1 + 2 = pos + 3 from by omega,
    show pos + 1 + 3 = pos + 4 from by omega, e]
  unfold toInt32
  push_cast
  split_ifs <;> omega

theorem scanLAux_none {buf : List Nat} {x : Int} (hB : ∀ b ∈ buf, b < 256) :
    ∀ fuel pos, buf.length ≤ pos + fuel → pos ≤ buf.length →
      (∀ j, pos < j → j ≤ buf.length → toInt32 (win4 buf j : Int) ≠ x) →
      scanLongAux buf buf.length x fuel pos (toInt32 (win4 buf pos : Int)) = (false, buf.length) := by
  intro fuel
  induction fuel with
  | zero =>
    intro pos hf hp _
    have hpm : pos = buf.length := by omega
    simp [scanLongAux, hpm]
  | succ k ih =>
    intro pos hf hp hno
    by_cases h : pos < buf.length
    · simp only [scanLongAux, if_pos h]
      rw [win4_step hB pos]
      rw [if_neg (hno (pos + 1) (by omega) (by omega))]
      exact ih (pos + 1) (by omega) (by omega) (fun j h1 h2 => hno j (by omega) h2)
    · have hpm : pos = buf.length := by omega
      simp [scanLongAux, if_neg h, hpm]

theorem scanLAux_find {buf : List Nat} {x : Int} (hB : ∀ b ∈ buf, b < 256) :
    ∀ fuel pos j, buf.length ≤ pos + fuel → pos < j → j ≤ buf.length →
      toInt32 (win4 buf j : Int) = x →
      (∀ i, pos < i → i < j → toInt32 (win4 buf i : Int) ≠ x) →
      scanLongAux buf buf.length x fuel pos (toInt32 (win4 buf pos : Int)) = (true, j) := by
  intro fuel
  induction fuel with
  | zero =>
    intro pos j hf h1 h2 h3 h4
    exact absurd rfl (by omega : ¬ (0 = 0))
  | succ k ih =>
    intro pos j hf h1 h2 h3 h4
    have h : pos < buf.length := by omega
    simp only [scanLongAux, if_pos h]
    rw [win4_step hB pos]
    by_cases hj : pos + 1 = j
    · rw [if_pos (by rw [hj]; exact h3)]
      rw [hj]
    · rw [if_neg (h4 (pos + 1) (by omega) (by omega))]
      exact ih (pos + 1) j (by omega) (by omega) h2 h3 (fun i hi1 hi2 => h4 i (by omega) hi2)

theorem toInt32_win4_zero (buf : List Nat) : toInt32 (win4 buf 0 : Int) = 0 := by
  rw [win4_zero]
  rfl

theorem toInt32_natCast_eq_iff {w x : Nat} (hw : w < 4294967296) (hx : x < 2147483648) :
    toInt32 (w : Int) = (x : Int) ↔ w = x := by
  rw [toInt32_eq_iff (Int.natCast_nonneg _) (by exact_mod_cast hw) (Int.natCast_nonneg _)
    (by exact_mod_cast hx)]
  exact Nat.cast_inj

/-- With a pattern in the representable positive range, rolling-register
matches of scanLong correspond exactly to real 4-byte occurrences. -/
theorem win4_no_match {buf : List Nat} {x : Nat}
    (hB : ∀ b ∈ buf, b < 256) (hx1 : 16777216 ≤ x) (hx2 : x < 2147483648)
    (hno : ∀ k, k < buf.length → ¬ occurs4At buf x k) :
    ∀ j, 0 < j → j ≤ buf.length → toInt32 (win4 buf j : Int) ≠ (x : Int) := by
  intro j h1 h2
  rcases Nat.lt_or_ge j 4 with hlt | hge
  · have hsmall : win4 buf j < 16777216 := by
      interval_cases j
      · exact win4_one_lt hB
      · exact win4_two_lt hB
      · exact win4_three_lt hB
    rw [toInt32_of_lt (Int.natCast_nonneg _) (by push_cast; omega)]
    push_cast
    omega
  · obtain ⟨m, rfl⟩ : ∃ m, j = m + 4 := ⟨j - 4, by omega⟩
    rw [win4_eq_beVal4]
    intro hc
    rw [toInt32_natCast_eq_iff (beVal4_lt hB m) hx2] at hc
    exact hno m (by omega) ⟨by omega, hc⟩

theorem scanLong_not_found {buf : List Nat} {x : Nat}
    (hB : ∀ b ∈ buf, b < 256) (hx1 : 16777216 ≤ x) (hx2 : x < 2147483648)
    (hno : ∀ k, k < buf.length → ¬ occurs4At buf x k) :
    (PullStream.fromBuffer buf).scanLong (x : Int) =
      (false, { buffer := buf, position := buf.length, maxPosition := buf.length }) := by
  have haux := scanLAux_none hB buf.length 0 (by omega) (by omega)
    (win4_no_match hB hx1 hx2 hno)
  rw [toInt32_win4_zero] at haux
  unfold PullStream.scanLong PullStream.fromBuffer
  dsimp only
  rw [Nat.sub_zero, haux]

theorem scanLong_finds {buf : List Nat} {x k : Nat}
    (hB : ∀ b ∈ buf, b < 256) (hx1 : 16777216 ≤ x) (hx2 : x < 2147483648)
    (hocc : occurs4At buf x k) (hmin : ∀ j, j < k → ¬ occurs4At buf x j) :
    (PullStream.fromBuffer buf).scanLong (x : Int) =
      (true, { buffer := buf, position := k + 4, maxPosition := buf.length }) := by
  obtain ⟨hk, hval⟩ := hocc
  have hminwin : ∀ i, 0 < i → i < k + 4 → toInt32 (win4 buf i : Int) ≠ (x : Int) := by
    intro i h1 h2
    rcases Nat.lt_or_ge i 4 with hlt | hge
    · have hsmall : win4 buf i < 16777216 := by
        interval_cases i
        · exact win4_one_lt hB
        · exact win4_two_lt hB
        · exact win4_three_lt hB
      rw [toInt32_of_lt (Int.natCast_nonneg _) (by push_cast; omega)]
      push_cast
      omega
    · obtain ⟨m, rfl⟩ : ∃ m, i = m + 4 := ⟨i - 4, by omega⟩
      rw [win4_eq_beVal4]
      intro hc
      rw [toInt32_natCast_eq_iff (beVal4_lt hB m) hx2] at hc
      exact hmin m (by omega) ⟨by omega, hc⟩
  have hcond : toInt32 (win4 buf (k + 4) : Int) = (x : Int) := by
    rw [win4_eq_beVal4, toInt32_natCast_eq_iff (beVal4_lt hB k) hx2]
    exact hval
  have haux := scanLAux_find hB buf.length 0 (k + 4) (by omega) (by omega) (by omega)
    hcond hminwin
  rw [toInt32_win4_zero] at haux
  unfold PullStream.scanLong PullStream.fromBuffer
  dsimp only
  rw [Nat.sub_zero, haux]

theorem scanLong_high_never {buf : List Nat} {x : Int}
    (hB : ∀ b ∈ buf, b < 256) (hx : 2147483648 ≤ x) :
    (PullStream.fromBuffer buf).scanLong x =
      (false, { buffer := buf, position := buf.length, maxPosition := buf.length }) := by
  have haux := scanLAux_none hB buf.length 0 (by omega) (by omega)
    (by
      intro j h1 h2
      exact ne_of_lt (lt_of_lt_of_le (toInt32_lt _) hx))
  rw [toInt32_win4_zero] at haux
  unfold PullStream.scanLong PullStream.fromBuffer
  dsimp only
  rw [Nat.sub_zero, haux]

/-- C6 (amended): for buffers of bytes and patterns whose big-endian byte
form has no leading zero byte, the scans are correct: scan3Bytes(X) with
0x10000 <= X < 0x1000000 over a buffer whose first occurrence of X is at
offset k (overlap-tolerant) returns true with the position left at k+3, and
returns false with the position at the buffer end when X does not occur;
scanLong behaves analogously for 0x1000000 <= X < 0x80000000 (offset k+4).
Outside those ranges the code deviates from the claim: a pattern with
leading zero bytes can be reported near the start without occurring (the
rolling register starts zeroed), and scanLong never finds any pattern
X >= 0x80000000, because the register wraps to a negative signed 32-bit
value while the caller's expected value stays positive. -/
theorem claim6_scan_laws (buf : List Nat) (hB : ∀ b ∈ buf, b < 256) :
    (∀ x k, 65536 ≤ x → x < 16777216 → occurs3At buf x k →
      (∀ j, j < k → ¬ occurs3At buf x j) →
      (PullStream.fromBuffer buf).scan3Bytes x =
        (true, { buffer := buf, position := k + 3, maxPosition := buf.length })) ∧
    (∀ x, 65536 ≤ x → x < 16777216 → (∀ k, k < buf.length → ¬ occurs3At buf x k) →
      (PullStream.fromBuffer buf).scan3Bytes x =
        (false, { buffer := buf, position := buf.length, maxPosition := buf.length })) ∧
    (∀ x k, 16777216 ≤ x → x < 2147483648 → occurs4At buf x k →
      (∀ j, j < k → ¬ occurs4At buf x j) →
      (PullStream.fromBuffer buf).scanLong (x : Int) =
        (true, { buffer := buf, position := k + 4, maxPosition := buf.length })) ∧
    (∀ x : Nat, 16777216 ≤ x → x < 2147483648 → (∀ k, k < buf.length → ¬ occurs4At buf x k) →
      (PullStream.fromBuffer buf).scanLong (x : Int) =
        (false, { buffer := buf, position := buf.length, maxPosition := buf.length })) ∧
    (∀ x : Int, 2147483648 ≤ x →
      (PullStream.fromBuffer buf).scanLong x =
        (false, { buffer := buf, position := buf.length, maxPosition := buf.length })) :=
  ⟨fun _ _ h1 _ hocc hmin => scan3Bytes_finds hB h1 hocc hmin,
    fun _ h1 _ hno => scan3Bytes_not_found hB h1 hno,
    fun _ _ h1 h2 hocc hmin => scanLong_finds hB h1 h2 hocc hmin,
    fun _ h1 h2 hno => scanLong_not_found hB h1 h2 hno,
    fun _ hx => scanLong_high_never hB hx⟩

/-- C6 witness: the overlap example from the specification: scanning for
0xAABBAA over the bytes AA AA BB AA finds the match that ends at the last
AA, leaving the position at 4. -/
theorem claim6_scan_laws_witness :
    (PullStream.fromBuffer [170, 170, 187, 170]).scan3Bytes 11189162 =
      (true, { buffer := [170, 170, 187, 170], position := 4, maxPosition := 4 }) :=
  (claim6_scan_laws [170, 170, 187, 170] (by decide)).1 11189162 1 (by decide) (by decide)
    (by decide) (by decide)

/-- C6 counterexample: the buffer [0x41] never contains the 3-byte pattern
X = 0x000041 (it is too short to contain any 3-byte pattern), yet
scan3Bytes(0x000041) returns true: the rolling register starts at zero, so
the two implicit leading zero bytes complete a phantom match after the very
first byte. This refutes the claim that scanning for X over a buffer never
containing X returns false. -/
theorem claim6_counterexample :
    ((PullStream.fromBuffer [65]).scan3Bytes 65).1 = true ∧
    (∀ k, k < 1 → ¬ occurs3At [65] 65 k) ∧
    (PullStream.fromBuffer [65]).buffer.length < 3 := by
  decide
